import Mathlib

/-!
# Motion-control primitives of `chassis.hpp`

A shallow embedding of the control loops of `src/v2/src/chassis.hpp`
(`spinTo`, `drive`, `autoDrive`, `odomDrive`, `moveTo`, `moveToPose`,
`timedSpin`, `velsUntilHeading`, `arcTurn`).

* C++ `double` is modelled by an arbitrary linearly ordered field `α`
  (exact arithmetic); every definition is computable and can be evaluated
  at `α = ℚ`.
* A blocking loop is a body function run by `iterate` with fuel. The body of
  iteration `k` reads the sensors through streams indexed by `k`
  (`heading k`, `rotation k`, `pos k`): whatever the sensors return.
* The class `util::timer` is not among the sources. `clock k` is the value
  that `timeoutTimer.time()` returns in iteration `k`; the spec has it
  measure the time elapsed since the call.
* The commands sent to the drivetrain (`spinDiffy`, `spin`, `stop`) are
  collected, iteration by iteration. The sensor resets `robot::chass.reset()`
  and the telemetry `glb::controller.print` are not commands and are left out.
* `util.hpp` is not among the sources: the helper functions it declares are
  the fields of a `Util` record that every primitive takes as a parameter.
-/

namespace chas

/-! ## Actuation commands and loops -/

/-- Commands accepted by the drivetrain (`robot::chass`). -/
inductive Cmd (α : Type) where
  | spinDiffy (rvel lvel : α)
  | spin (vel : α)
  | stop (mode : String)
  deriving DecidableEq

/-- Outcome of one loop iteration: the commands it issued, and the state for
the next iteration, or `none` when the loop is left in this iteration. -/
structure Tick (σ α : Type) where
  cmds : List (Cmd α)
  next : Option σ

/-- A finished call: the index of the iteration in which the loop was left,
the commands of iterations `0 .. exitIter`, and the commands issued after the
loop. -/
structure Run (α : Type) where
  exitIter : Nat
  ticks : List (List (Cmd α))
  after : List (Cmd α)

/-- Every command of the call, in the order of issue. -/
def Run.trace {α : Type} (r : Run α) : List (Cmd α) :=
  r.ticks.flatten ++ r.after

/-- Runs `body` from iteration `k` in state `s`; `none` when the fuel is used
up before the loop is left. Returns the exit iteration and the commands of
each iteration run. -/
def iterate {σ α : Type} (body : Nat → σ → Tick σ α) :
    Nat → Nat → σ → Option (Nat × List (List (Cmd α)))
  | 0, _, _ => none
  | fuel + 1, k, s =>
    match (body k s).next with
    | none => some (k, [(body k s).cmds])
    | some s' =>
      (iterate body fuel (k + 1) s').map fun r => (r.1, (body k s).cmds :: r.2)

/-- A whole call: the loop from iteration 0, then the commands `after`. -/
def runLoop {σ α : Type} (body : Nat → σ → Tick σ α) (s0 : σ)
    (after : List (Cmd α)) (fuel : Nat) : Option (Run α) :=
  (iterate body fuel 0 s0).map fun r => ⟨r.1, r.2, after⟩

/-- The state in which iteration `k` starts, when the loop reaches it. -/
def stateAfter {σ α : Type} (body : Nat → σ → Tick σ α) (s0 : σ) : Nat → Option σ
  | 0 => some s0
  | k + 1 => (stateAfter body s0 k).bind fun s => (body k s).next

/-- The call `run` returns, whatever the fuel above `n`, and its loop is left
in iteration `n`. -/
def ExitsAt {α : Type} (run : Nat → Option (Run α)) (n : Nat) : Prop :=
  ∀ fuel, n < fuel → ∃ r, run fuel = some r ∧ r.exitIter = n

/-- The call `run` returns, whatever the fuel above `n`, and its loop is left
in iteration `n` or earlier. -/
def ExitsBy {α : Type} (run : Nat → Option (Run α)) (n : Nat) : Prop :=
  ∀ fuel, n < fuel → ∃ r, run fuel = some r ∧ r.exitIter ≤ n

/-! ## Types and helpers declared in `util.hpp` -/

/-- The `util::coordinate` pair. -/
structure coordinate (α : Type) where
  x : α
  y : α
  deriving DecidableEq

/-- The `util::pidConstants` record; the field order is that of the
constructor calls `util::pidConstants(p, i, d, tolerance, integralThreshold,
maxIntegral)`. -/
structure pidConstants (α : Type) where
  p : α
  i : α
  d : α
  tolerance : α
  integralThreshold : α
  maxIntegral : α

/-- The helper functions of `util.hpp` and `<cmath>` the primitives call. They
are parameters of the embedding. -/
structure Util (α : Type) where
  minError : α → α → α
  dirToSpin : α → α → ℤ
  distToPoint : coordinate α → coordinate α → α
  absoluteAngleToPoint : coordinate α → coordinate α → α
  dtr : α → α
  rtd : α → α
  sign : α → α
  sin : α → α
  cos : α → α
  PI : α

section Field

variable {α : Type} [LinearOrderedField α]

/-- Modelled from the spec: `util::pid` (class of `util.hpp`, not among the
sources): "owns integral, previousError, constants". -/
structure pid (α : Type) where
  constants : pidConstants α
  integral : α
  previousError : α

/-- Modelled from the spec: the constructor `util::pid(constants, error)`; the
controller starts with a zero integral and the given error as previous
error. -/
def pid.init (c : pidConstants α) (error : α) : pid α :=
  ⟨c, 0, error⟩

/-- Modelled from the spec: `pid::update(newConstants)` hot-swaps the gains. -/
def pid.update (c : pid α) (k : pidConstants α) : pid α :=
  { c with constants := k }

/-- Modelled from the spec: the integral rule of `pid::out(error)`. "If
|error| ≤ tolerance, integral ← 0; else if |error| < integralThreshold,
integral += error; else integral unchanged. If integral magnitude >
maxIntegral, integral ← 0." -/
def pidIntegral (c : pidConstants α) (integral error : α) : α :=
  let integral :=
    if |error| ≤ c.tolerance then 0
    else if |error| < c.integralThreshold then integral + error
    else integral
  if |integral| > c.maxIntegral then 0 else integral

/-- Modelled from the spec: `pid::out(error)`. The integral follows
`pidIntegral`; "derivative = error − previousError; previousError ← error.
Returns p·error + i·integral + d·derivative." Returns the output and the new
controller state. -/
def pid.out (c : pid α) (error : α) : α × pid α :=
  let integral := pidIntegral c.constants c.integral error
  let derivative := error - c.previousError
  (c.constants.p * error + c.constants.i * integral + c.constants.d * derivative,
    { c with integral := integral, previousError := error })

/-- Modelled from the spec: `minimalError(target, current)`, "signed shortest
angular path from current to target, in (-180,180]", for headings in
[0, 360). -/
def specMinError (target current : α) : α :=
  let e := target - current
  if e > 180 then e - 360 else if e ≤ -180 then e + 360 else e

/-- Modelled from the spec: `directionToSpin(target, current)`, "sign (+1 or -1)
indicating the rotation direction that realizes the minimal error". -/
def specDirToSpin (target current : α) : ℤ :=
  if specMinError target current < 0 then -1 else 1

/-! ## `spinTo` (chassis.hpp 27-101) -/

/-- Loop state of `spinTo`: the integral, the previous error and the instant
(on the clock of the call) at which `endTimer` was last started. -/
structure SpinToState (α : Type) where
  integral : α
  prevError : α
  endStart : α

/-- The integral update of `spinTo` (lines 67-72). -/
def spinToIntegral (c : pidConstants α) (integral error : α) : α :=
  let integral :=
    if error ≤ c.tolerance then 0
    else if error < c.integralThreshold then integral + error
    else integral
  if integral > c.maxIntegral then 0 else integral

/-- The value `error*kP + integral*kI + derivative*kD` of `spinTo`
(lines 92-93), from the state before the tick. -/
def spinToOut (c : pidConstants α) (integral prevError error : α) : α :=
  error * c.p + spinToIntegral c integral error * c.i + (error - prevError) * c.d

/-- One iteration of the `while (!end)` loop of `spinTo` (lines 57-99). -/
def spinToBody (u : Util α) (target timeout : α) (c : pidConstants α)
    (heading clock : Nat → α) (k : Nat) (s : SpinToState α) :
    Tick (SpinToState α) α :=
  let currHeading := heading k
  let dir : ℤ := -u.dirToSpin target currHeading
  let error := u.minError target currHeading
  let integral := spinToIntegral c s.integral error
  let endStart := if error ≥ c.tolerance then clock k else s.endStart
  if clock k ≥ timeout then ⟨[], none⟩
  else
    let rVel := (dir : α) * spinToOut c s.integral s.prevError error
    let lVel := ((dir * -1 : ℤ) : α) * spinToOut c s.integral s.prevError error
    ⟨[Cmd.spinDiffy rVel lVel], some ⟨integral, error, endStart⟩⟩

/-- The call `spinTo(target, timeout, constants)`. `prevError0` is the value of
the uninitialised local `prevError`. -/
def spinTo (u : Util α) (target timeout : α) (c : pidConstants α)
    (prevError0 : α) (heading clock : Nat → α) (fuel : Nat) : Option (Run α) :=
  runLoop (spinToBody u target timeout c heading clock) ⟨0, prevError0, 0⟩
    [Cmd.stop "b"] fuel

/-! ## `drive` (chassis.hpp 156-216) -/

/-- Loop state of `drive`. -/
structure DriveState (α : Type) where
  integral : α
  prevError : α

/-- The value `error*kP + integral*kI + derivative*kD` of `drive`
(lines 195-209) with `kP = 0.3`, `kI = 0.2`, `kD = 2.4`,
`maxIntegral = 10000`. The commented-out line 193 does not update the
integral. -/
def driveOut (integral prevError error : α) : α :=
  let integral := if integral > 10000 then 0 else integral
  error * 0.3 + integral * 0.2 + (error - prevError) * 2.4

/-- One iteration of the `while (!end)` loop of `drive`. The flag `end` is set
before the motors are commanded, the loop is left after them. -/
def driveBody (target timeout : α) (rotation clock : Nat → α) (k : Nat)
    (s : DriveState α) : Tick (DriveState α) α :=
  let currRotation := rotation k
  let error := target - currRotation
  let integral := if s.integral > 10000 then 0 else s.integral
  let rVel := driveOut s.integral s.prevError error
  let lVel := driveOut s.integral s.prevError error
  ⟨[Cmd.spinDiffy rVel lVel],
    if clock k ≥ timeout then none else some ⟨integral, error⟩⟩

/-- The call `drive(target, timeout, tolerance)`; `tolerance` is not read.
`prevError0` is the value of the uninitialised local `prevError`. -/
def drive (target timeout _tolerance : α) (prevError0 : α)
    (rotation clock : Nat → α) (fuel : Nat) : Option (Run α) :=
  runLoop (driveBody target timeout rotation clock) ⟨0, prevError0⟩
    [Cmd.stop "b"] fuel

/-! ## `autoDrive` (chassis.hpp 218-276) -/

/-- Loop state of `autoDrive`: the heading read in the previous iteration (or
before the loop), the angular constants and the two controllers. -/
structure AutoDriveState (α : Type) where
  currHeading : α
  acons : pidConstants α
  linearController : pid α
  angularController : pid α

/-- The clip of lines 257-260. -/
def autoDriveClip (vl va : α) : α :=
  if vl + |va| > 127 then 127 - |va| else vl

/-- One iteration of the `while (true)` loop of `autoDrive`. The error is
taken from the heading of the previous iteration (line 242 precedes the read
of line 249). -/
def autoDriveBody (u : Util α) (target heading timeout : α)
    (imu rotation clock : Nat → α) (k : Nat) (s : AutoDriveState α) :
    Tick (AutoDriveState α) α :=
  let sgn : α := if target > 0 then 1 else -1
  let error := u.minError heading s.currHeading
  let acons := if error < 0.5 then { s.acons with p := 0 } else s.acons
  let angularController :=
    if error < 0.5 then s.angularController.update acons else s.angularController
  let currHeading := imu k
  let rot := rotation k
  let va := (angularController.out error).1
  let vl := (s.linearController.out (target - rot)).1
  let dir : ℤ := -u.dirToSpin heading currHeading
  let vl := autoDriveClip vl va
  ⟨[Cmd.spinDiffy (vl + (dir : α) * va * sgn) (vl - (dir : α) * va * sgn)],
    if clock k ≥ timeout then none
    else some ⟨currHeading, acons, (s.linearController.out (target - rot)).2,
      (angularController.out error).2⟩⟩

/-- The call `autoDrive(target, heading, timeout, lCons, acons)`; `heading0` is
the heading read before the loop. -/
def autoDrive (u : Util α) (target heading timeout : α)
    (lCons acons : pidConstants α) (heading0 : α)
    (imu rotation clock : Nat → α) (fuel : Nat) : Option (Run α) :=
  runLoop (autoDriveBody u target heading timeout imu rotation clock)
    ⟨heading0, acons, pid.init lCons (u.minError heading heading0),
      pid.init acons target⟩
    [Cmd.stop "b"] fuel

/-! ## `odomDrive` (chassis.hpp 279-338) -/

/-- The target point of `odomDrive` (lines 294-296). -/
def odomDriveTarget (u : Util α) (distance heading : α) (pos0 : coordinate α) :
    coordinate α :=
  let dist := -distance
  ⟨u.sin (2 * u.PI - heading) * dist + pos0.x,
    u.cos (2 * u.PI - heading) * dist + pos0.y⟩

/-- The error of `odomDrive` (line 314). -/
def odomDriveError (u : Util α) (distance : α) (pos target : coordinate α) : α :=
  let dist := -distance
  dist - (dist - u.distToPoint pos target)

/-- Loop state of `odomDrive`. -/
structure OdomDriveState (α : Type) where
  integral : α
  prevError : α
  endStart : α

/-- One iteration of the `while (!end)` loop of `odomDrive`, with `kP = 2.1`,
`kI = 0`, `kD = 0.1`, `endTime = 1`, `integralThreshold = 30`. -/
def odomDriveBody (u : Util α) (distance timeout tolerance : α)
    (target : coordinate α) (pos : Nat → coordinate α) (clock : Nat → α)
    (k : Nat) (s : OdomDriveState α) : Tick (OdomDriveState α) α :=
  let error := odomDriveError u distance (pos k) target
  let integral :=
    if error ≤ tolerance then 0
    else if |error| < 30 then s.integral + error
    else s.integral
  let derivative := error - s.prevError
  let endStart := if error ≥ tolerance then clock k else s.endStart
  let vel := error * 2.1 + integral * 0 + derivative * 0.1
  ⟨[Cmd.spin vel],
    if clock k - endStart ≥ 1 then none
    else if clock k ≥ timeout then none
    else some ⟨integral, error, endStart⟩⟩

/-- The call `odomDrive(distance, timeout, tolerance)`; `heading0` (radians)
and `pos0` are the heading and position read before the loop. -/
def odomDrive (u : Util α) (distance timeout tolerance : α) (prevError0 : α)
    (heading0 : α) (pos0 : coordinate α) (pos : Nat → coordinate α)
    (clock : Nat → α) (fuel : Nat) : Option (Run α) :=
  runLoop
    (odomDriveBody u distance timeout tolerance
      (odomDriveTarget u distance heading0 pos0) pos clock)
    ⟨0, prevError0, 0⟩ [Cmd.stop "b"] fuel

/-! ## `moveToVel` (chassis.hpp 340-361) -/

/-- The conversion of the bearing "to 0-360" of line 348. -/
def moveToVelTargetHeading (a : α) : α :=
  if a ≥ 0 then a else 180 + |a|

/-- The blend of lines 356-357: `(lVel, rVel)`. -/
def moveToVelBlend (linearVel rotationVel rotationBias : α) : α × α :=
  ((linearVel - |rotationVel| * rotationBias) - rotationVel,
    (linearVel - |rotationVel| * rotationBias) + rotationVel)

/-- The function `moveToVel`; the vector `{lVel, rVel}` is the pair
`(lVel, rVel)`. `pos` and `currHeading` are the position and heading read. -/
def moveToVel (u : Util α) (pos : coordinate α) (currHeading : α)
    (target : coordinate α) (lkp rkp rotationBias : α) : α × α :=
  let linearError := u.distToPoint pos target
  let linearVel := linearError * lkp
  let targetHeading := u.absoluteAngleToPoint pos target
  let targetHeading := moveToVelTargetHeading targetHeading
  let dir : ℤ := -u.dirToSpin targetHeading currHeading
  let rotationError := u.minError targetHeading currHeading
  let rotationVel := rotationError * rkp * (dir : α)
  moveToVelBlend linearVel rotationVel rotationBias

/-! ## `moveTo` (chassis.hpp 363-410) -/

/-- The angular P gain of one tick (lines 379-380, 392-393): `slope` and
`initP` are fixed before the loop from the initial gain `p0`, the initial
linear error `e0` and `rotationCut`; `e` is the linear error of the tick. -/
def moveToGain (p0 e0 rotationCut e : α) : α :=
  let slope := p0 / (e0 - rotationCut)
  let initP := p0
  let p := slope * (e - e0) + initP
  if p < 0 then 0 else p

/-- Loop state of `moveTo`: the two controllers. -/
structure MoveToState (α : Type) where
  linearController : pid α
  rotationController : pid α

/-- One iteration of the `while (timeoutTimer.time() < timeout)` loop of
`moveTo`; `initError` is the linear error before the loop. -/
def moveToBody (u : Util α) (target : coordinate α) (timeout : α)
    (rConstants : pidConstants α) (rotationBias rotationCut initError : α)
    (pos : Nat → coordinate α) (heading clock : Nat → α) (k : Nat)
    (s : MoveToState α) : Tick (MoveToState α) α :=
  if clock k < timeout then
    let linearError := u.distToPoint (pos k) target
    let currHeading := heading k
    let targetHeading := u.absoluteAngleToPoint (pos k) target
    let rotationError := u.minError targetHeading currHeading
    let rConstants :=
      { rConstants with p := moveToGain rConstants.p initError rotationCut linearError }
    let rotationController := s.rotationController.update rConstants
    let dir : ℤ := -u.dirToSpin targetHeading currHeading
    let cre := u.cos (if rotationError ≤ 90 then u.dtr rotationError else u.PI / 2)
    let rotationVel := (dir : α) * (rotationController.out rotationError).1
    let linearVel := cre * (s.linearController.out linearError).1
    let rVel := (linearVel - |rotationVel| * rotationBias) + rotationVel
    let lVel := (linearVel - |rotationVel| * rotationBias) - rotationVel
    ⟨[Cmd.spinDiffy rVel lVel],
      some ⟨(s.linearController.out linearError).2,
        (rotationController.out rotationError).2⟩⟩
  else ⟨[], none⟩

/-- The call `moveTo(target, timeout, lConstants, rConstants, rotationBias,
rotationScale, rotationCut)`; `pos0` and `heading0` are read before the loop,
`rotationScale` is not read. -/
def moveTo (u : Util α) (target : coordinate α) (timeout : α)
    (lConstants rConstants : pidConstants α)
    (rotationBias _rotationScale rotationCut : α)
    (pos0 : coordinate α) (heading0 : α)
    (pos : Nat → coordinate α) (heading clock : Nat → α) (fuel : Nat) :
    Option (Run α) :=
  let linearError := u.distToPoint pos0 target
  let rotationError := u.minError (u.absoluteAngleToPoint pos0 target) heading0
  runLoop
    (moveToBody u target timeout rConstants rotationBias rotationCut linearError
      pos heading clock)
    ⟨pid.init lConstants linearError, pid.init rConstants rotationError⟩
    [Cmd.stop "b"] fuel

/-! ## `moveToPose` (chassis.hpp 414-458) -/

/-- Loop state of `moveToPose`. -/
structure MoveToPoseState (α : Type) where
  distTraveled : α
  prevPos : coordinate α

/-- The read `lut[i]` of line 446. Inside the table it is the sample; outside
it the C++ read is undefined and yields the unspecified value `oob i`. -/
def lutAt (lut : List (coordinate α)) (oob : ℤ → coordinate α) (i : ℤ) :
    coordinate α :=
  if 0 ≤ i then (lut.get? i.toNat).getD (oob i) else oob i

/-- The sample number `t` of lines 442-443, `resolution = 100`. -/
def moveToPoseT [FloorRing α] (distTraveled curveLength : α) : ℤ :=
  let ratioTraveled := distTraveled / curveLength
  ⌈ratioTraveled * 100⌉

/-- One iteration of the `while (1)` loop of `moveToPose`. No timer is read. -/
def moveToPoseBody [FloorRing α] (u : Util α) (lut : List (coordinate α))
    (oob : ℤ → coordinate α) (curveLength : α) (pos : Nat → coordinate α)
    (heading : Nat → α) (k : Nat) (s : MoveToPoseState α) :
    Tick (MoveToPoseState α) α :=
  let distTraveled := s.distTraveled + u.distToPoint s.prevPos (pos k)
  let prevPos := pos k
  let t := moveToPoseT distTraveled curveLength
  let targetPos := lutAt lut oob (t - 1)
  let velocities := moveToVel u (pos k) (heading k) targetPos 0.1 0.1 0.1
  ⟨[Cmd.spinDiffy velocities.2 velocities.1],
    if t = (lut.length : ℤ) then none else some ⟨distTraveled, prevPos⟩⟩

/-- The call `moveToPose(curve, timeout, lkp, rkp, rotationBias)`. The class
`util::bezier` is not among the sources: `lut` stands for
`curve.createLUT(100)` and `curveLength` for
`curve.approximateLength(lut, 100)`. `timeout`, `lkp`, `rkp` and
`rotationBias` are not read, and no command follows the loop. -/
def moveToPose [FloorRing α] (u : Util α) (lut : List (coordinate α))
    (oob : ℤ → coordinate α) (curveLength : α)
    (_timeout _lkp _rkp _rotationBias : α) (pos0 : coordinate α)
    (pos : Nat → coordinate α) (heading : Nat → α) (fuel : Nat) :
    Option (Run α) :=
  runLoop (moveToPoseBody u lut oob curveLength pos heading) ⟨0, pos0⟩ [] fuel

/-! ## `timedSpin` (chassis.hpp 460-494) -/

/-- One iteration of the `while (!end)` loop of `timedSpin`; `initDir` is the
direction computed before the loop. -/
def timedSpinBody (u : Util α) (target speed timeout : α) (initDir : ℤ)
    (heading clock : Nat → α) (k : Nat) (_s : Unit) : Tick Unit α :=
  let currHeading := heading k
  let dir : ℤ := -u.dirToSpin target currHeading
  let stop₁ : Bool := if initDir ≠ dir then true else false
  let stop₂ : Bool := if clock k ≥ timeout then true else stop₁
  ⟨[Cmd.spinDiffy ((dir : α) * speed) (-speed * (dir : α))],
    if stop₂ then none else some ()⟩

/-- The call `timedSpin(target, speed, timeout)`; `heading0` is the heading
read before the loop. -/
def timedSpin (u : Util α) (target speed timeout : α) (heading0 : α)
    (heading clock : Nat → α) (fuel : Nat) : Option (Run α) :=
  runLoop
    (timedSpinBody u target speed timeout (-u.dirToSpin target heading0)
      heading clock)
    () [Cmd.stop "b"] fuel

/-! ## `velsUntilHeading` (chassis.hpp 496-509) -/

/-- One iteration of the `while (true)` loop of `velsUntilHeading`. -/
def velsUntilHeadingBody (u : Util α) (rvolt lvolt heading tolerance timeout : α)
    (imu clock : Nat → α) (k : Nat) (_s : Unit) : Tick Unit α :=
  if u.minError heading (imu k) < tolerance ∨ clock k ≥ timeout then ⟨[], none⟩
  else ⟨[Cmd.spinDiffy rvolt lvolt], some ()⟩

/-- The call `velsUntilHeading(rvolt, lvolt, heading, tolerance, timeout)`; no
command follows the loop. -/
def velsUntilHeading (u : Util α) (rvolt lvolt heading tolerance timeout : α)
    (imu clock : Nat → α) (fuel : Nat) : Option (Run α) :=
  runLoop (velsUntilHeadingBody u rvolt lvolt heading tolerance timeout imu clock)
    () [] fuel

/-! ## `arcTurn` (chassis.hpp 511-561) -/

/-- The macro `DL` (line 5). -/
def DL : α := 368.2

/-- The macro `DR` (line 6). -/
def DR : α := -362

/-- The quotient `sl/sr` of lines 527-531. It is the quotient of the code where
`sr ≠ 0`, that is for `theta ≠ 0` and `radius + DR ≠ 0`; the properties of
`arcTurn` below are stated for such inputs. -/
def arcTurnQuot (theta radius : α) : α :=
  let sl := theta * (radius + DL)
  let sr := theta * (radius + DR)
  sl / sr

/-- The clamp of line 544. -/
def arcTurnClamp (u : Util α) (vel : α) : α :=
  if |vel| ≥ 127 then 127 * u.sign vel else vel

/-- The clamped value `vel` of lines 542-544 on a tick with heading `curr`. -/
def arcTurnVel (u : Util α) (theta curr : α) (controller : pid α) : α :=
  let vel := (controller.out (u.minError theta curr)).1 * (u.dirToSpin theta curr : α)
  arcTurnClamp u vel

/-- The pair `(rvel, lvel)` of lines 546-547. -/
def arcTurnWheels (quot vel : α) : α × α :=
  let rvel := (2 * vel) / (quot + 1)
  let lvel := quot * rvel
  (rvel, lvel)

/-- One iteration of the `while (true)` loop of `arcTurn`; `theta` is the
argument in radians, converted by `rtd` for the controller. -/
def arcTurnBody (u : Util α) (theta radius timeout : α)
    (imu clock : Nat → α) (k : Nat) (controller : pid α) : Tick (pid α) α :=
  let quot := arcTurnQuot theta radius
  let theta := u.rtd theta
  let curr := imu k
  let currTime := clock k
  let vel := arcTurnVel u theta curr controller
  let w := arcTurnWheels quot vel
  ⟨[Cmd.spinDiffy w.1 w.2],
    if currTime ≥ timeout then none
    else some (controller.out (u.minError theta curr)).2⟩

/-- The call `arcTurn(theta, radius, timeout, cons)`. -/
def arcTurn (u : Util α) (theta radius timeout : α) (cons : pidConstants α)
    (imu clock : Nat → α) (fuel : Nat) : Option (Run α) :=
  runLoop (arcTurnBody u theta radius timeout imu clock) (pid.init cons 1000)
    [Cmd.stop "b"] fuel

/-! ## The angular controller of `autoDrive` on a tick -/

/-- The angular controller with which `angularController.out(error)` is called
on a tick of `autoDrive` that starts in state `s`: the controller of the
state, after the update of lines 243-247 when the error is below 0.5. -/
def autoDriveAngular (u : Util α) (heading : α) (s : AutoDriveState α) : pid α :=
  let error := u.minError heading s.currHeading
  let acons := if error < 0.5 then { s.acons with p := 0 } else s.acons
  if error < 0.5 then s.angularController.update acons else s.angularController

/-- The heading error computed on tick `k` of `autoDrive` (line 242): from the
heading read before the loop on tick 0, from the heading read on the
previous tick afterwards. -/
def autoDriveError (u : Util α) (heading heading0 : α) (imu : Nat → α)
    (k : Nat) : α :=
  u.minError heading (if k = 0 then heading0 else imu (k - 1))

/-! ## The helpers over a field with a square root and trigonometry -/

/-- Modelled from the spec: the helpers of `util.hpp` (not among the sources)
over a field that provides a square root, a sine, a cosine, a bearing in
degrees and pi: `minError` and `dirToSpin` as worded by the spec,
`distToPoint` the "Euclidean distance", `absoluteAngleToPoint` the bearing of
the displacement, `dtr` and `rtd` the conversions between degrees and
radians, `sign` the sign with `sign 0 = 0`. -/
def specUtil (sqrt sin cos : α → α) (bearing : α → α → α) (pi : α) : Util α where
  minError := specMinError
  dirToSpin := specDirToSpin
  distToPoint := fun a b => sqrt ((a.x - b.x) ^ 2 + (a.y - b.y) ^ 2)
  absoluteAngleToPoint := fun a b => bearing (b.x - a.x) (b.y - a.y)
  dtr := fun x => x * pi / 180
  rtd := fun x => x * 180 / pi
  sign := fun x => if x > 0 then 1 else if x < 0 then -1 else 0
  sin := sin
  cos := cos
  PI := pi

/-! ## The two velocities of a tick of `moveTo` -/

/-- The value `rotationVel` of a tick of `moveTo` (lines 385-400):
`dir * rotationController.out(rotationError)`, the controller having received
the scheduled P gain of the tick. -/
def moveToRotationVel (u : Util α) (target : coordinate α)
    (rConstants : pidConstants α) (rotationCut initError : α)
    (pos : Nat → coordinate α) (heading : Nat → α) (k : Nat)
    (s : MoveToState α) : α :=
  let linearError := u.distToPoint (pos k) target
  let currHeading := heading k
  let targetHeading := u.absoluteAngleToPoint (pos k) target
  let rotationError := u.minError targetHeading currHeading
  let rConstants :=
    { rConstants with p := moveToGain rConstants.p initError rotationCut linearError }
  let rotationController := s.rotationController.update rConstants
  let dir : ℤ := -u.dirToSpin targetHeading currHeading
  (dir : α) * (rotationController.out rotationError).1

/-- The value `linearVel` of a tick of `moveTo` (lines 385-401):
`cre * linearController.out(linearError)` with
`cre = cos(rotationError <= 90 ? dtr(rotationError) : PI/2)`. -/
def moveToLinearVel (u : Util α) (target : coordinate α)
    (pos : Nat → coordinate α) (heading : Nat → α) (k : Nat)
    (s : MoveToState α) : α :=
  let linearError := u.distToPoint (pos k) target
  let currHeading := heading k
  let targetHeading := u.absoluteAngleToPoint (pos k) target
  let rotationError := u.minError targetHeading currHeading
  let cre := u.cos (if rotationError ≤ 90 then u.dtr rotationError else u.PI / 2)
  cre * (s.linearController.out linearError).1

end Field

/-! ## A rational interpretation of the helpers -/

/-- The helpers over `ℚ`, to run the primitives on concrete inputs.
`minError` and `dirToSpin` are the functions worded by the spec. The others
are rational stand-ins for the `double` functions: `PI` is 355/113,
`distToPoint` is the rational square root of the squared Euclidean distance
(exact when that is the square of a rational, so along the axes), `sign` is
the sign with `sign 0 = 0`, `sin` and `cos` are the Taylor polynomials at 0
of degree 5 and 4, `absoluteAngleToPoint` is the piecewise-linear
approximation of the bearing in degrees, in (-180, 180]. -/
def ratUtil : Util ℚ where
  minError := specMinError
  dirToSpin := specDirToSpin
  distToPoint := fun a b => Rat.sqrt ((a.x - b.x) ^ 2 + (a.y - b.y) ^ 2)
  absoluteAngleToPoint := fun a b =>
    let dx := b.x - a.x
    let dy := b.y - a.y
    if dx = 0 ∧ dy = 0 then 0
    else
      let q := 90 * dx / (|dx| + |dy|)
      if dy ≥ 0 then q else if dx ≥ 0 then 180 - q else -180 - q
  dtr := fun x => x * (355 / 113) / 180
  rtd := fun x => x * 180 / (355 / 113)
  sign := fun x => if x > 0 then 1 else if x < 0 then -1 else 0
  sin := fun x => x - x ^ 3 / 6 + x ^ 5 / 120
  cos := fun x => 1 - x ^ 2 / 2 + x ^ 4 / 24
  PI := 355 / 113


/-- The table `createLUT(100)` of the straight curve from (0, 0) to (10, 0):
101 samples, 0.1 apart; its length is 10. -/
def lineLut : List (coordinate ℚ) :=
  (List.range 101).map fun (i : Nat) => ⟨(i : ℚ) / 10, 0⟩

/-! # Properties -/

section Loops
variable {σ α : Type}

/-- A loop that has exited ran iterations `k0 .. n`: one command list per
iteration, each the commands of the body in some state, and the body left the
loop in the last of them only. -/
theorem iterate_some (body : Nat → σ → Tick σ α) :
    ∀ (fuel k0 : Nat) (s : σ) (n : Nat) (ticks : List (List (Cmd α))),
      iterate body fuel k0 s = some (n, ticks) →
      k0 ≤ n ∧ ticks.length = n - k0 + 1 ∧
      ∀ i, i < ticks.length → ∃ s',
        ticks.get? i = some (body (k0 + i) s').cmds ∧
        ((body (k0 + i) s').next = none ↔ k0 + i = n) := by
  intro fuel
  induction fuel with
  | zero => intro k0 s n ticks h; simp [iterate] at h
  | succ fuel ih =>
    intro k0 s n ticks h
    rw [iterate] at h
    cases hb : (body k0 s).next with
    | none =>
      rw [hb] at h
      simp only [Option.some.injEq, Prod.mk.injEq] at h
      obtain ⟨rfl, rfl⟩ := h
      refine ⟨le_refl _, by simp, ?_⟩
      intro i hi
      simp only [List.length_singleton, Nat.lt_one_iff] at hi
      subst hi
      exact ⟨s, by simp, by simp [hb]⟩
    | some s' =>
      rw [hb] at h
      simp only [Option.map_eq_some', Prod.mk.injEq] at h
      obtain ⟨⟨n', t'⟩, hr, rfl, rfl⟩ := h
      obtain ⟨hle, hlen, hall⟩ := ih (k0 + 1) s' n' t' hr
      refine ⟨by omega, by simp [hlen]; omega, ?_⟩
      intro i hi
      cases i with
      | zero =>
        refine ⟨s, by simp, ?_⟩
        simp only [Nat.add_zero, hb]
        constructor
        · intro h; cases h
        · intro h; omega
      | succ i =>
        have hi' : i < t'.length := by simpa using hi
        obtain ⟨s'', h1, h2⟩ := hall i hi'
        refine ⟨s'', ?_, ?_⟩
        · simpa [Nat.add_assoc, Nat.add_comm 1 i] using h1
        · have e : k0 + (i + 1) = k0 + 1 + i := by omega
          rw [e]; exact h2

/-- A loop whose body leaves at iteration `n` in every state exits no later
than iteration `n`, given fuel for the iterations `k0 .. n`. -/
theorem iterate_exits_le (body : Nat → σ → Tick σ α) (n : Nat)
    (hn : ∀ s, (body n s).next = none) :
    ∀ (fuel k0 : Nat) (s : σ), k0 ≤ n → n - k0 < fuel →
      ∃ r, iterate body fuel k0 s = some r ∧ r.1 ≤ n := by
  intro fuel
  induction fuel with
  | zero => intro k0 s _ h; omega
  | succ fuel ih =>
    intro k0 s hle hf
    rw [iterate]
    cases hb : (body k0 s).next with
    | none => exact ⟨_, rfl, hle⟩
    | some s' =>
      have hne : k0 ≠ n := by
        rintro rfl
        rw [hn s] at hb; cases hb
      obtain ⟨r, hr, hrn⟩ := ih (k0 + 1) s' (by omega) (by omega)
      exact ⟨(r.1, (body k0 s).cmds :: r.2), by simp [hr], hrn⟩

/-- A finished call of `runLoop`: its commands after the loop and its loop. -/
theorem runLoop_some (body : Nat → σ → Tick σ α) (s0 : σ) (after : List (Cmd α))
    (fuel : Nat) (r : Run α) (h : runLoop body s0 after fuel = some r) :
    r.after = after ∧ iterate body fuel 0 s0 = some (r.exitIter, r.ticks) := by
  unfold runLoop at h
  simp only [Option.map_eq_some'] at h
  obtain ⟨⟨n, t⟩, hr, rfl⟩ := h
  exact ⟨rfl, hr⟩

/-- A call whose body leaves the loop at iteration `n` in every state returns,
with exit iteration at most `n`, given more than `n` units of fuel. -/
theorem runLoop_exits_le (body : Nat → σ → Tick σ α) (s0 : σ)
    (after : List (Cmd α)) (n : Nat) (hn : ∀ s, (body n s).next = none)
    (fuel : Nat) (hf : n < fuel) :
    ∃ r, runLoop body s0 after fuel = some r ∧ r.exitIter ≤ n := by
  obtain ⟨r, hr, hle⟩ := iterate_exits_le body n hn fuel 0 s0 (Nat.zero_le _) (by omega)
  exact ⟨⟨r.1, r.2, after⟩, by simp [runLoop, hr], hle⟩

/-- A call whose body leaves the loop at iteration `n` in every state, and at
no earlier iteration in any state, returns with exit iteration `n`; it ran
`n + 1` iterations, each issuing the commands of the body in some state. -/
theorem runLoop_exits_at (body : Nat → σ → Tick σ α) (s0 : σ)
    (after : List (Cmd α)) (n : Nat) (hn : ∀ s, (body n s).next = none)
    (hfirst : ∀ j, j < n → ∀ s, (body j s).next ≠ none)
    (fuel : Nat) (hf : n < fuel) :
    ∃ r, runLoop body s0 after fuel = some r ∧ r.exitIter = n ∧
      r.after = after ∧ r.ticks.length = n + 1 ∧
      ∀ i, i ≤ n → ∃ s, r.ticks.get? i = some (body i s).cmds := by
  obtain ⟨r, hr, hle⟩ := runLoop_exits_le body s0 after n hn fuel hf
  obtain ⟨ha, hit⟩ := runLoop_some body s0 after fuel r hr
  obtain ⟨_, hlen, hall⟩ := iterate_some body fuel 0 s0 r.exitIter r.ticks hit
  have hex : r.exitIter = n := by
    rcases Nat.lt_or_ge r.exitIter n with hlt | hge
    · obtain ⟨s, _, hs⟩ := hall r.exitIter (by omega)
      have := hfirst r.exitIter hlt s
      rw [Nat.zero_add] at hs
      exact absurd (hs.2 rfl) this
    · omega
  refine ⟨r, hr, hex, ha, by omega, ?_⟩
  intro i hi
  obtain ⟨s, hs, _⟩ := hall i (by omega)
  exact ⟨s, by simpa using hs⟩

/-- The last command of a finished call whose loop is followed by the single
command `c` is `c`. -/
theorem runLoop_last (body : Nat → σ → Tick σ α) (s0 : σ) (c : Cmd α)
    (fuel : Nat) (r : Run α) (h : runLoop body s0 [c] fuel = some r) :
    r.trace.getLast? = some c := by
  obtain ⟨ha, _⟩ := runLoop_some body s0 [c] fuel r h
  simp [Run.trace, ha]

/-- Every command of a finished call with nothing after the loop was issued by
the body in some iteration and state. -/
theorem runLoop_mem (body : Nat → σ → Tick σ α) (s0 : σ)
    (fuel : Nat) (r : Run α) (h : runLoop body s0 [] fuel = some r)
    (c : Cmd α) (hc : c ∈ r.trace) : ∃ k s, c ∈ (body k s).cmds := by
  obtain ⟨ha, hit⟩ := runLoop_some body s0 [] fuel r h
  obtain ⟨_, _, hall⟩ := iterate_some body fuel 0 s0 r.exitIter r.ticks hit
  simp only [Run.trace, ha, List.append_nil, List.mem_flatten] at hc
  obtain ⟨l, hl, hcl⟩ := hc
  obtain ⟨i, hi, rfl⟩ := List.getElem_of_mem hl
  obtain ⟨s, hs, _⟩ := hall i hi
  rw [List.get?_eq_getElem?, List.getElem?_eq_getElem hi] at hs
  simp only [Option.some.injEq] at hs
  exact ⟨0 + i, s, hs ▸ hcl⟩

/-- One more iteration when the body goes on. -/
theorem iterate_continue (body : Nat → σ → Tick σ α) (fuel k : Nat) (s s' : σ)
    (h : (body k s).next = some s') :
    iterate body (fuel + 1) k s =
      (iterate body fuel (k + 1) s').map fun r => (r.1, (body k s).cmds :: r.2) := by
  rw [iterate, h]

/-- The result when the body leaves the loop. -/
theorem iterate_leave (body : Nat → σ → Tick σ α) (fuel k : Nat) (s : σ)
    (h : (body k s).next = none) :
    iterate body (fuel + 1) k s = some (k, [(body k s).cmds]) := by
  rw [iterate, h]
/-- A loop whose body maps the state `s` to itself in every iteration never
leaves it. -/
theorem iterate_stuck (body : Nat → σ → Tick σ α) (s : σ)
    (h : ∀ k, (body k s).next = some s) :
    ∀ fuel k, iterate body fuel k s = none := by
  intro fuel
  induction fuel with
  | zero => intro k; rfl
  | succ fuel ih =>
    intro k
    rw [iterate, h k]
    simp [ih (k + 1)]

end Loops

section FieldProperties

variable {α : Type} [LinearOrderedField α]

/-! ## `arcTurn` -/

/-- The quotient `sl/sr` does not depend on a non-zero `theta`. -/
theorem arcTurnQuot_eq (theta radius : α) (ht : theta ≠ 0) :
    arcTurnQuot theta radius = (radius + DL) / (radius + DR) := by
  unfold arcTurnQuot
  simp only
  rw [mul_div_mul_left _ _ ht]

/-- The commands of one `arcTurn` tick. -/
theorem arcTurnBody_cmds (u : Util α) (theta radius timeout : α)
    (imu clock : Nat → α) (k : Nat) (controller : pid α) :
    (arcTurnBody u theta radius timeout imu clock k controller).cmds =
      [Cmd.spinDiffy
        (arcTurnWheels (arcTurnQuot theta radius)
          (arcTurnVel u (u.rtd theta) (imu k) controller)).1
        (arcTurnWheels (arcTurnQuot theta radius)
          (arcTurnVel u (u.rtd theta) (imu k) controller)).2] := rfl

/-- C1. On every tick of `arcTurn` (any iteration `k`, any controller state),
when `radius + DL`, `radius + DR` and `theta` are non-zero, the quotient
`(radius + DL)/(radius + DR)` is not -1 and the clamped PID value is not zero,
the pair `(rvel, lvel)` passed to `spinDiffy` satisfies
`rvel / lvel = (radius + DR) / (radius + DL)`. -/
theorem arcTurn_wheel_ratio (u : Util α) (theta radius timeout : α)
    (imu clock : Nat → α) (k : Nat) (controller : pid α)
    (hl : radius + DL ≠ 0) (hr : radius + DR ≠ 0)
    (hq : (radius + DL) / (radius + DR) ≠ -1) (ht : theta ≠ 0)
    (hv : arcTurnVel u (u.rtd theta) (imu k) controller ≠ 0) :
    ∃ rvel lvel,
      (arcTurnBody u theta radius timeout imu clock k controller).cmds =
        [Cmd.spinDiffy rvel lvel] ∧
      rvel / lvel = (radius + DR) / (radius + DL) := by
  refine ⟨_, _, arcTurnBody_cmds u theta radius timeout imu clock k controller, ?_⟩
  rw [arcTurnQuot_eq theta radius ht]
  simp only [arcTurnWheels]
  have hq1 : (radius + DL) / (radius + DR) + 1 ≠ 0 := by
    intro h
    exact hq (by linarith)
  have h2 : (radius + DL) + (radius + DR) ≠ 0 := by
    intro h
    apply hq1
    field_simp
    exact h
  field_simp
  ring

/-! ## Exit conditions of the loop bodies -/

theorem spinToBody_next (u : Util α) (target timeout : α) (c : pidConstants α)
    (heading clock : Nat → α) (k : Nat) (s : SpinToState α) :
    (spinToBody u target timeout c heading clock k s).next = none ↔
      timeout ≤ clock k := by
  unfold spinToBody
  simp only [ge_iff_le]
  split <;> simp [*]

theorem spinToBody_cmds_exit (u : Util α) (target timeout : α) (c : pidConstants α)
    (heading clock : Nat → α) (k : Nat) (s : SpinToState α)
    (h : timeout ≤ clock k) :
    (spinToBody u target timeout c heading clock k s).cmds = [] := by
  unfold spinToBody
  simp [h]

theorem driveBody_next (target timeout : α) (rotation clock : Nat → α) (k : Nat)
    (s : DriveState α) :
    (driveBody target timeout rotation clock k s).next = none ↔
      timeout ≤ clock k := by
  unfold driveBody
  simp only [ge_iff_le]
  split <;> simp [*]

theorem autoDriveBody_next (u : Util α) (target heading timeout : α)
    (imu rotation clock : Nat → α) (k : Nat) (s : AutoDriveState α) :
    (autoDriveBody u target heading timeout imu rotation clock k s).next = none ↔
      timeout ≤ clock k := by
  unfold autoDriveBody
  simp only [ge_iff_le]
  split <;> simp [*]

theorem odomDriveBody_next (u : Util α) (distance timeout tolerance : α)
    (target : coordinate α) (pos : Nat → coordinate α) (clock : Nat → α)
    (k : Nat) (s : OdomDriveState α) (h : timeout ≤ clock k) :
    (odomDriveBody u distance timeout tolerance target pos clock k s).next = none := by
  unfold odomDriveBody
  simp only [ge_iff_le, h, if_true, ite_self]

theorem moveToBody_next (u : Util α) (target : coordinate α) (timeout : α)
    (rConstants : pidConstants α) (rotationBias rotationCut initError : α)
    (pos : Nat → coordinate α) (heading clock : Nat → α) (k : Nat)
    (s : MoveToState α) :
    (moveToBody u target timeout rConstants rotationBias rotationCut initError
      pos heading clock k s).next = none ↔ timeout ≤ clock k := by
  unfold moveToBody
  split
  · next h => simp [not_le.mpr h]
  · next h => simp [not_lt.mp h]

theorem timedSpinBody_next (u : Util α) (target speed timeout : α) (initDir : ℤ)
    (heading clock : Nat → α) (k : Nat) (s : Unit) :
    (timedSpinBody u target speed timeout initDir heading clock k s).next = none ↔
      (initDir ≠ -u.dirToSpin target (heading k) ∨ timeout ≤ clock k) := by
  unfold timedSpinBody
  simp only [ge_iff_le]
  by_cases h1 : timeout ≤ clock k <;>
    by_cases h2 : initDir = -u.dirToSpin target (heading k) <;> simp [h1, h2]

theorem velsUntilHeadingBody_next (u : Util α)
    (rvolt lvolt heading tolerance timeout : α) (imu clock : Nat → α) (k : Nat)
    (s : Unit) :
    (velsUntilHeadingBody u rvolt lvolt heading tolerance timeout imu clock k s).next
        = none ↔
      (u.minError heading (imu k) < tolerance ∨ timeout ≤ clock k) := by
  unfold velsUntilHeadingBody
  simp only [ge_iff_le]
  split <;> simp [*]

theorem moveToPoseBody_next [FloorRing α] (u : Util α)
    (lut : List (coordinate α))
    (oob : ℤ → coordinate α) (curveLength : α) (pos : Nat → coordinate α)
    (heading : Nat → α) (k : Nat) (s : MoveToPoseState α) :
    (moveToPoseBody u lut oob curveLength pos heading k s).next =
      if moveToPoseT (s.distTraveled + u.distToPoint s.prevPos (pos k)) curveLength
          = (lut.length : ℤ) then none
      else some ⟨s.distTraveled + u.distToPoint s.prevPos (pos k), pos k⟩ := rfl

theorem arcTurnBody_next (u : Util α) (theta radius timeout : α)
    (imu clock : Nat → α) (k : Nat) (controller : pid α) :
    (arcTurnBody u theta radius timeout imu clock k controller).next = none ↔
      timeout ≤ clock k := by
  unfold arcTurnBody
  simp only [ge_iff_le]
  split <;> simp [*]

/-! ## `spinTo` leaves its loop on the timeout, and only on it -/

/-- The loop of `spinTo` is left in the first iteration whose clock reading
has reached the timeout; that iteration issues no command. -/
theorem spinTo_exit (u : Util α) (target timeout : α) (c : pidConstants α)
    (prevError0 : α) (heading clock : Nat → α) (n : Nat)
    (hn : timeout ≤ clock n) (hfirst : ∀ j, j < n → clock j < timeout)
    (fuel : Nat) (hf : n < fuel) :
    ∃ r, spinTo u target timeout c prevError0 heading clock fuel = some r ∧
      r.exitIter = n ∧ r.ticks.get? n = some [] := by
  obtain ⟨r, hr, hex, _, _, hall⟩ :=
    runLoop_exits_at (spinToBody u target timeout c heading clock)
      ⟨0, prevError0, 0⟩ [Cmd.stop "b"] n
      (fun s => (spinToBody_next u target timeout c heading clock n s).2 hn)
      (fun j hj s h =>
        absurd ((spinToBody_next u target timeout c heading clock j s).1 h)
          (not_le.mpr (hfirst j hj)))
      fuel hf
  obtain ⟨s, hs⟩ := hall n (le_refl _)
  rw [spinToBody_cmds_exit u target timeout c heading clock n s hn] at hs
  exact ⟨r, hr, hex, hs⟩

/-- C3. With the timeout timer reading `10 * k` ms at iteration `k`, and
`timeout ≥ 0`, whatever the constants and the heading readings: there is an
iteration `n` that is the first with `10 * n ≥ timeout`, it satisfies
`10 * n < timeout + 10`, and `spinTo` returns (given more than `n` units of
fuel) having left its loop in iteration `n`, in which it issued no command. -/
theorem spinTo_exits_within_one_tick [FloorRing α] (u : Util α)
    (target timeout : α) (c : pidConstants α) (prevError0 : α)
    (heading : Nat → α) (ht : 0 ≤ timeout) :
    ∃ n : Nat, timeout ≤ 10 * (n : α) ∧
      (∀ j : Nat, j < n → 10 * (j : α) < timeout) ∧
      10 * (n : α) < timeout + 10 ∧
      ∀ fuel, n < fuel → ∃ r,
        spinTo u target timeout c prevError0 heading (fun k => 10 * (k : α)) fuel
          = some r ∧
        r.exitIter = n ∧ r.ticks.get? n = some [] := by
  have h10 : (0 : α) < 10 := by norm_num
  have hn : timeout ≤ 10 * ((⌈timeout / 10⌉₊ : Nat) : α) := by
    have := Nat.le_ceil (timeout / 10)
    rw [div_le_iff₀ h10] at this
    linarith
  have hfirst : ∀ j : Nat, j < ⌈timeout / 10⌉₊ → 10 * (j : α) < timeout := by
    intro j hj
    have := Nat.lt_ceil.mp hj
    rw [lt_div_iff₀ h10] at this
    linarith
  have hlt : 10 * ((⌈timeout / 10⌉₊ : Nat) : α) < timeout + 10 := by
    have := Nat.ceil_lt_add_one (div_nonneg ht h10.le)
    have h2 : 10 * ((⌈timeout / 10⌉₊ : Nat) : α) < 10 * (timeout / 10 + 1) :=
      mul_lt_mul_of_pos_left this h10
    have h3 : 10 * (timeout / 10 + 1) = timeout + 10 := by field_simp
    linarith
  exact ⟨⌈timeout / 10⌉₊, hn, hfirst, hlt, fun fuel hf =>
    spinTo_exit u target timeout c prevError0 heading (fun k => 10 * (k : α))
      ⌈timeout / 10⌉₊ hn hfirst fuel hf⟩

/-- C5 (amended). `spinTo` leaves its loop on the timeout only: with every
sequence of heading readings, so also when the error has stayed below the
tolerance for 2000 ms or longer, the loop is left in the first iteration
whose clock reading has reached the timeout. The settle timer is restarted
but never read: the instant of its last start changes neither the commands of
a tick nor whether the tick leaves the loop. -/
theorem spinTo_exits_on_timeout_only (u : Util α) (target timeout : α)
    (c : pidConstants α) (prevError0 : α) (heading clock : Nat → α) (n : Nat)
    (hn : timeout ≤ clock n) (hfirst : ∀ j, j < n → clock j < timeout) :
    ExitsAt (spinTo u target timeout c prevError0 heading clock) n ∧
    ∀ (k : Nat) (s : SpinToState α) (e : α),
      (spinToBody u target timeout c heading clock k { s with endStart := e }).cmds
        = (spinToBody u target timeout c heading clock k s).cmds ∧
      ((spinToBody u target timeout c heading clock k { s with endStart := e }).next
          = none ↔
        (spinToBody u target timeout c heading clock k s).next = none) := by
  constructor
  · intro fuel hf
    obtain ⟨r, hr, hex, _⟩ :=
      spinTo_exit u target timeout c prevError0 heading clock n hn hfirst fuel hf
    exact ⟨r, hr, hex⟩
  · intro k s e
    constructor
    · unfold spinToBody
      simp only [ge_iff_le]
      split <;> rfl
    · rw [spinToBody_next, spinToBody_next]

/-! ## Timeouts -/

/-- The eight primitives `spinTo`, `drive`, `autoDrive`, `odomDrive`,
`moveTo`, `timedSpin`, `velsUntilHeading` and `arcTurn` honour their timeout:
with every sequence of sensor readings, and every clock that reaches the
timeout at some iteration `n` (`timeout ≤ clock n`), the call returns and its
loop is left in iteration `n` or earlier. `moveToPose` does not read its
timeout argument: its result is the same for every timeout. -/
theorem timeout_honored [FloorRing α] (u : Util α) (timeout : α)
    (clock : Nat → α) (n : Nat) (hn : timeout ≤ clock n) :
    (∀ target c prevError0 heading,
      ExitsBy (spinTo u target timeout c prevError0 heading clock) n) ∧
    (∀ target tolerance prevError0 rotation,
      ExitsBy (drive target timeout tolerance prevError0 rotation clock) n) ∧
    (∀ target heading lCons acons heading0 imu rotation,
      ExitsBy (autoDrive u target heading timeout lCons acons heading0 imu
        rotation clock) n) ∧
    (∀ distance tolerance prevError0 heading0 pos0 pos,
      ExitsBy (odomDrive u distance timeout tolerance prevError0 heading0 pos0
        pos clock) n) ∧
    (∀ target lConstants rConstants rotationBias rotationScale rotationCut pos0
        heading0 pos heading,
      ExitsBy (moveTo u target timeout lConstants rConstants rotationBias
        rotationScale rotationCut pos0 heading0 pos heading clock) n) ∧
    (∀ target speed heading0 heading,
      ExitsBy (timedSpin u target speed timeout heading0 heading clock) n) ∧
    (∀ rvolt lvolt heading tolerance imu,
      ExitsBy (velsUntilHeading u rvolt lvolt heading tolerance timeout imu
        clock) n) ∧
    (∀ theta radius cons imu,
      ExitsBy (arcTurn u theta radius timeout cons imu clock) n) ∧
    (∀ lut oob curveLength timeout' lkp rkp rotationBias pos0 pos heading fuel,
      moveToPose u lut oob curveLength timeout lkp rkp rotationBias pos0 pos
          heading fuel =
        moveToPose u lut oob curveLength timeout' lkp rkp rotationBias pos0 pos
          heading fuel) := by
  refine ⟨?_, ?_, ?_, ?_, ?_, ?_, ?_, ?_, ?_⟩
  · intro target c prevError0 heading fuel hf
    exact runLoop_exits_le _ _ _ n
      (fun s => (spinToBody_next u target timeout c heading clock n s).2 hn) fuel hf
  · intro target tolerance prevError0 rotation fuel hf
    exact runLoop_exits_le _ _ _ n
      (fun s => (driveBody_next target timeout rotation clock n s).2 hn) fuel hf
  · intro target heading lCons acons heading0 imu rotation fuel hf
    exact runLoop_exits_le _ _ _ n
      (fun s =>
        (autoDriveBody_next u target heading timeout imu rotation clock n s).2 hn)
      fuel hf
  · intro distance tolerance prevError0 heading0 pos0 pos fuel hf
    exact runLoop_exits_le _ _ _ n
      (fun s => odomDriveBody_next u distance timeout tolerance _ pos clock n s hn)
      fuel hf
  · intro target lConstants rConstants rotationBias rotationScale rotationCut pos0
      heading0 pos heading fuel hf
    exact runLoop_exits_le _ _ _ n
      (fun s =>
        (moveToBody_next u target timeout rConstants rotationBias rotationCut _
          pos heading clock n s).2 hn)
      fuel hf
  · intro target speed heading0 heading fuel hf
    exact runLoop_exits_le _ _ _ n
      (fun s =>
        (timedSpinBody_next u target speed timeout _ heading clock n s).2
          (Or.inr hn))
      fuel hf
  · intro rvolt lvolt heading tolerance imu fuel hf
    exact runLoop_exits_le _ _ _ n
      (fun s =>
        (velsUntilHeadingBody_next u rvolt lvolt heading tolerance timeout imu
          clock n s).2 (Or.inr hn))
      fuel hf
  · intro theta radius cons imu fuel hf
    exact runLoop_exits_le _ _ _ n
      (fun s => (arcTurnBody_next u theta radius timeout imu clock n s).2 hn)
      fuel hf
  · intros
    rfl

/-! ## The command that ends a call -/

/-- C4 (amended). For the seven primitives `spinTo`, `drive`, `autoDrive`,
`odomDrive`, `moveTo`, `timedSpin` and `arcTurn`, the last command of every
call that returns is `stop("b")`. `velsUntilHeading` returns without a stop:
every command of a call is `spinDiffy(rvolt, lvolt)`. -/
theorem brake_stop_on_return (u : Util α) (fuel : Nat) :
    (∀ target timeout c prevError0 heading clock r,
      spinTo u target timeout c prevError0 heading clock fuel = some r →
      r.trace.getLast? = some (Cmd.stop "b")) ∧
    (∀ (target timeout tolerance prevError0 : α) rotation clock r,
      drive target timeout tolerance prevError0 rotation clock fuel = some r →
      r.trace.getLast? = some (Cmd.stop "b")) ∧
    (∀ target heading timeout lCons acons heading0 imu rotation clock r,
      autoDrive u target heading timeout lCons acons heading0 imu rotation clock
        fuel = some r →
      r.trace.getLast? = some (Cmd.stop "b")) ∧
    (∀ distance timeout tolerance prevError0 heading0 pos0 pos clock r,
      odomDrive u distance timeout tolerance prevError0 heading0 pos0 pos clock
        fuel = some r →
      r.trace.getLast? = some (Cmd.stop "b")) ∧
    (∀ target timeout lConstants rConstants rotationBias rotationScale
        rotationCut pos0 heading0 pos heading clock r,
      moveTo u target timeout lConstants rConstants rotationBias rotationScale
        rotationCut pos0 heading0 pos heading clock fuel = some r →
      r.trace.getLast? = some (Cmd.stop "b")) ∧
    (∀ target speed timeout heading0 heading clock r,
      timedSpin u target speed timeout heading0 heading clock fuel = some r →
      r.trace.getLast? = some (Cmd.stop "b")) ∧
    (∀ theta radius timeout cons imu clock r,
      arcTurn u theta radius timeout cons imu clock fuel = some r →
      r.trace.getLast? = some (Cmd.stop "b")) ∧
    (∀ rvolt lvolt heading tolerance timeout imu clock r,
      velsUntilHeading u rvolt lvolt heading tolerance timeout imu clock fuel
        = some r →
      ∀ c ∈ r.trace, c = Cmd.spinDiffy rvolt lvolt) := by
  refine ⟨?_, ?_, ?_, ?_, ?_, ?_, ?_, ?_⟩
  · intro target timeout c prevError0 heading clock r h
    exact runLoop_last _ _ _ fuel r h
  · intro target timeout tolerance prevError0 rotation clock r h
    exact runLoop_last _ _ _ fuel r h
  · intro target heading timeout lCons acons heading0 imu rotation clock r h
    exact runLoop_last _ _ _ fuel r h
  · intro distance timeout tolerance prevError0 heading0 pos0 pos clock r h
    exact runLoop_last _ _ _ fuel r h
  · intro target timeout lConstants rConstants rotationBias rotationScale
      rotationCut pos0 heading0 pos heading clock r h
    exact runLoop_last _ _ _ fuel r h
  · intro target speed timeout heading0 heading clock r h
    exact runLoop_last _ _ _ fuel r h
  · intro theta radius timeout cons imu clock r h
    exact runLoop_last _ _ _ fuel r h
  · intro rvolt lvolt heading tolerance timeout imu clock r h c hc
    obtain ⟨k, s, hks⟩ := runLoop_mem _ _ fuel r h c hc
    unfold velsUntilHeadingBody at hks
    split at hks
    · simp at hks
    · simpa using hks

/-! ## `velsUntilHeading` -/

/-- C6 (amended). The loop of `velsUntilHeading` is left in the first
iteration at which `minError(heading, current) < tolerance`, the value
returned by `minError` compared strictly and without an absolute value, or
the clock reading has reached the timeout, and in no earlier iteration. -/
theorem velsUntilHeading_exit (u : Util α)
    (rvolt lvolt heading tolerance timeout : α) (imu clock : Nat → α) (n : Nat)
    (hn : u.minError heading (imu n) < tolerance ∨ timeout ≤ clock n)
    (hfirst : ∀ j, j < n →
      ¬ (u.minError heading (imu j) < tolerance ∨ timeout ≤ clock j)) :
    ExitsAt
      (velsUntilHeading u rvolt lvolt heading tolerance timeout imu clock) n := by
  intro fuel hf
  obtain ⟨r, hr, hex, _⟩ :=
    runLoop_exits_at
      (velsUntilHeadingBody u rvolt lvolt heading tolerance timeout imu clock)
      () [] n
      (fun s =>
        (velsUntilHeadingBody_next u rvolt lvolt heading tolerance timeout imu
          clock n s).2 hn)
      (fun j hj s h =>
        hfirst j hj
          ((velsUntilHeadingBody_next u rvolt lvolt heading tolerance timeout imu
            clock j s).1 h))
      fuel hf
  exact ⟨r, hr, hex⟩

/-! ## Saturation -/

/-- After the clip of `autoDrive`, `vl + |va|` is at most 127. -/
theorem autoDriveClip_le (vl va : α) : autoDriveClip vl va + |va| ≤ 127 := by
  unfold autoDriveClip
  split
  · simp
  · next h => exact not_lt.mp h

/-- The clamp of `arcTurn` bounds the magnitude by 127 when `sign` returns a
value of magnitude at most 1. -/
theorem arcTurnClamp_abs_le (u : Util α) (vel : α)
    (hs : |u.sign vel| ≤ 1) : |arcTurnClamp u vel| ≤ 127 := by
  unfold arcTurnClamp
  split
  · rw [abs_mul, abs_of_pos (by norm_num : (0 : α) < 127)]
    linarith
  · next h => exact le_of_lt (not_le.mp h)

/-- The two wheel values of `arcTurn` add up to twice `vel`. -/
theorem arcTurnWheels_sum (quot vel : α) (hq : quot ≠ -1) :
    (arcTurnWheels quot vel).1 + (arcTurnWheels quot vel).2 = 2 * vel := by
  have h : quot + 1 ≠ 0 := fun h => hq (by linarith)
  simp only [arcTurnWheels]
  field_simp
  ring

/-! ## The integral of `spinTo` -/

/-- For an error and a previous integral that are not negative, the integral
update of `spinTo` is the rule of the spec. -/
theorem spinToIntegral_eq_pidIntegral (c : pidConstants α) (integral error : α)
    (he : 0 ≤ error) (hi : 0 ≤ integral) :
    spinToIntegral c integral error = pidIntegral c integral error := by
  unfold spinToIntegral pidIntegral
  rw [abs_of_nonneg he]
  have h : 0 ≤ (if error ≤ c.tolerance then 0
      else if error < c.integralThreshold then integral + error else integral) := by
    split
    · exact le_refl _
    · split
      · linarith
      · exact hi
  simp only [abs_of_nonneg h]

/-- C8 (amended). `spinTo` compares the signed error and the signed integral,
without absolute values. On a tick that commands the motors, with an error
`e ≥ 0` and a previous integral `≥ 0`, the new integral is the one of the
rule of the spec (0 if `|e| ≤ tolerance`, `integral + e` if
`tolerance < |e| < integralThreshold`, unchanged otherwise; then 0 if its
magnitude exceeds `maxIntegral`), the new previous error is `e`, and the
command is `spinDiffy(dir * m, -(dir * m))` with
`m = p*e + i*integral + d*(e - previousError)`. -/
theorem spinTo_integral_rule (u : Util α) (target timeout : α)
    (c : pidConstants α) (heading clock : Nat → α) (k : Nat) (s : SpinToState α)
    (hclock : clock k < timeout) (he : 0 ≤ u.minError target (heading k))
    (hi : 0 ≤ s.integral) :
    ∃ s', (spinToBody u target timeout c heading clock k s).next = some s' ∧
      s'.integral = pidIntegral c s.integral (u.minError target (heading k)) ∧
      s'.prevError = u.minError target (heading k) ∧
      (spinToBody u target timeout c heading clock k s).cmds =
        [Cmd.spinDiffy
          (((-u.dirToSpin target (heading k) : ℤ) : α) *
            (c.p * u.minError target (heading k) + c.i * s'.integral +
              c.d * (u.minError target (heading k) - s.prevError)))
          (-(((-u.dirToSpin target (heading k) : ℤ) : α) *
            (c.p * u.minError target (heading k) + c.i * s'.integral +
              c.d * (u.minError target (heading k) - s.prevError))))] := by
  have hnot : ¬ clock k ≥ timeout := not_le.mpr hclock
  refine ⟨⟨spinToIntegral c s.integral (u.minError target (heading k)),
    u.minError target (heading k),
    if u.minError target (heading k) ≥ c.tolerance then clock k else s.endStart⟩,
    ?_, ?_, rfl, ?_⟩
  · simp only [spinToBody, hnot, if_false]
  · exact spinToIntegral_eq_pidIntegral c _ _ he hi
  · simp only [spinToBody, hnot, if_false, spinToOut, List.cons.injEq,
      Cmd.spinDiffy.injEq, and_true]
    constructor
    · ring
    · push_cast
      ring

/-- The integral after a tick of `spinTo` that goes on. -/
theorem spinToBody_next_integral (u : Util α) (target timeout : α)
    (c : pidConstants α) (heading clock : Nat → α) (k : Nat)
    (s s' : SpinToState α)
    (h : (spinToBody u target timeout c heading clock k s).next = some s') :
    s'.integral = spinToIntegral c s.integral (u.minError target (heading k)) := by
  unfold spinToBody at h
  simp only [ge_iff_le] at h
  split at h
  · cases h
  · simp only [Option.some.injEq] at h
    rw [← h]

/-- C9 (amended). In `spinTo`, starting from integral 0, with a constant error
`e` such that `tolerance < e < integralThreshold` (signed, strictly above the
tolerance) on the first `n` ticks, none of which has reached the timeout, and
with the sums `j * e`, `1 ≤ j ≤ n`, not above `maxIntegral`, the integral
after `n` ticks is `n * e`. On every tick with `e ≤ tolerance` the integral
becomes 0. -/
theorem spinTo_integral_accumulates (u : Util α) (target timeout : α)
    (c : pidConstants α) (prevError0 : α) (heading clock : Nat → α) (e : α)
    (n : Nat) (hlo : c.tolerance < e) (hhi : e < c.integralThreshold)
    (hmax : ∀ j : Nat, 1 ≤ j → j ≤ n → (j : α) * e ≤ c.maxIntegral)
    (herr : ∀ j, j < n → u.minError target (heading j) = e)
    (hclock : ∀ j, j < n → clock j < timeout) :
    (∃ s, stateAfter (spinToBody u target timeout c heading clock)
        ⟨0, prevError0, 0⟩ n = some s ∧ s.integral = (n : α) * e) ∧
    ∀ (k : Nat) (s s' : SpinToState α),
      u.minError target (heading k) ≤ c.tolerance →
      (spinToBody u target timeout c heading clock k s).next = some s' →
      s'.integral = 0 := by
  constructor
  · induction n with
    | zero => exact ⟨_, rfl, by simp⟩
    | succ n ih =>
      obtain ⟨s, hs, hint⟩ := ih (fun j h1 h2 => hmax j h1 (by omega))
        (fun j hj => herr j (by omega)) (fun j hj => hclock j (by omega))
      have hnot : ¬ clock n ≥ timeout := not_le.mpr (hclock n (by omega))
      have hm := hmax (n + 1) (by omega) (le_refl _)
      push_cast at hm
      refine ⟨⟨spinToIntegral c s.integral e, e,
        if e ≥ c.tolerance then clock n else s.endStart⟩, ?_, ?_⟩
      · rw [stateAfter, hs]
        simp only [Option.some_bind, spinToBody, hnot, if_false, herr n (by omega)]
      · simp only [spinToIntegral, not_le.mpr hlo, if_false, hhi, if_true, hint]
        have hle : ¬ ((n : α) * e + e > c.maxIntegral) := by
          apply not_lt.mpr
          linarith
        rw [if_neg hle]
        push_cast
        ring
  · intro k s s' hle h
    rw [spinToBody_next_integral u target timeout c heading clock k s s' h]
    simp [spinToIntegral, hle]

/-! ## The gain schedule of `moveTo` -/

/-- The scheduled gain in closed form. -/
theorem moveToGain_eq (p0 e0 c e : α) (h : e0 ≠ c) :
    moveToGain p0 e0 c e = max 0 (p0 * (e - c) / (e0 - c)) := by
  have hne : e0 - c ≠ 0 := sub_ne_zero.mpr h
  have hp : p0 / (e0 - c) * (e - e0) + p0 = p0 * (e - c) / (e0 - c) := by
    field_simp
    ring
  unfold moveToGain
  simp only [hp]
  split
  · next hlt => rw [max_eq_left (le_of_lt hlt)]
  · next hge => rw [max_eq_right (not_lt.mp hge)]

/-- C10. In `moveTo`, with initial linear error `e0`, cutoff `c = rotationCut`,
`e0 ≠ c`, and initial gain `p0 ≥ 0`: the angular P gain of a tick with linear
error `e` is `max 0 (p0 * (e - c) / (e0 - c))`; it is `p0` at `e = e0`, 0 at
`e = c`, never negative, and for `c < e0` it lies between 0 and `p0` and is
non-decreasing in `e` on `c ≤ e ≤ e0`. It is the P gain with which the rotation
controller leaves every tick of the loop. -/
theorem moveTo_gain_schedule (p0 e0 c : α) (h : e0 ≠ c) (hp : 0 ≤ p0) :
    (∀ e, moveToGain p0 e0 c e = max 0 (p0 * (e - c) / (e0 - c))) ∧
    moveToGain p0 e0 c e0 = p0 ∧
    moveToGain p0 e0 c c = 0 ∧
    (∀ e, 0 ≤ moveToGain p0 e0 c e) ∧
    (c < e0 → ∀ e, c ≤ e → e ≤ e0 →
      0 ≤ moveToGain p0 e0 c e ∧ moveToGain p0 e0 c e ≤ p0) ∧
    (c < e0 → ∀ e1 e2, c ≤ e1 → e1 ≤ e2 → e2 ≤ e0 →
      moveToGain p0 e0 c e1 ≤ moveToGain p0 e0 c e2) ∧
    (∀ (u : Util α) target timeout (rConstants : pidConstants α) rotationBias
        pos heading clock k (s s' : MoveToState α),
      rConstants.p = p0 →
      (moveToBody u target timeout rConstants rotationBias c e0 pos heading
        clock k s).next = some s' →
      s'.rotationController.constants.p =
        moveToGain p0 e0 c (u.distToPoint (pos k) target)) := by
  have hne : e0 - c ≠ 0 := sub_ne_zero.mpr h
  have hnonneg : ∀ e, 0 ≤ moveToGain p0 e0 c e := by
    intro e
    rw [moveToGain_eq p0 e0 c e h]
    exact le_max_left _ _
  have hmono : c < e0 → ∀ e1 e2, e1 ≤ e2 →
      moveToGain p0 e0 c e1 ≤ moveToGain p0 e0 c e2 := by
    intro hc e1 e2 h12
    have hpos : 0 < e0 - c := sub_pos.mpr hc
    rw [moveToGain_eq p0 e0 c e1 h, moveToGain_eq p0 e0 c e2 h]
    apply max_le_max (le_refl _)
    apply div_le_div_of_nonneg_right _ hpos.le
    exact mul_le_mul_of_nonneg_left (by linarith) hp
  have hat0 : moveToGain p0 e0 c e0 = p0 := by
    rw [moveToGain_eq p0 e0 c e0 h, mul_div_assoc, div_self hne, mul_one]
    exact max_eq_right hp
  refine ⟨fun e => moveToGain_eq p0 e0 c e h, hat0, ?_, hnonneg, ?_, ?_, ?_⟩
  · rw [moveToGain_eq p0 e0 c c h]
    simp
  · intro hc e _ hle
    refine ⟨hnonneg e, ?_⟩
    have := hmono hc e e0 hle
    rwa [hat0] at this
  · intro hc e1 e2 _ h12 _
    exact hmono hc e1 e2 h12
  · intro u target timeout rConstants rotationBias pos heading clock k s s' hp0 hs
    unfold moveToBody at hs
    split at hs
    · simp only [Option.some.injEq] at hs
      rw [← hs, ← hp0]
      rfl
    · cases hs

/-! ## The velocity blend -/

/-- C11. `moveToVel` returns `(lVel, rVel)` with `lVel = (L - |R|*b) - R` and
`rVel = (L - |R|*b) + R`, where `L` is the distance to the target times `lkp`
and `R = rotationError * rkp * dir`; so `rVel - lVel = 2*R`, the mean of the
two is `L - |R|*b`, which is at most `L` when `b ≥ 0`. A tick of `moveTo` that
commands the motors passes `spinDiffy` the pair `(rVel, lVel)` of the same
blend, formed from its own `L = linearVel = cre * linearController.out(…)` and
`R = rotationVel = dir * rotationController.out(…)`. -/
theorem moveToVel_blend (u : Util α) (pos : coordinate α) (currHeading : α)
    (target : coordinate α) (lkp rkp b : α) :
    (moveToVel u pos currHeading target lkp rkp b =
      moveToVelBlend (u.distToPoint pos target * lkp)
        (u.minError (moveToVelTargetHeading (u.absoluteAngleToPoint pos target))
            currHeading * rkp *
          ((-u.dirToSpin (moveToVelTargetHeading (u.absoluteAngleToPoint pos target))
            currHeading : ℤ) : α)) b) ∧
    (∀ L R : α,
      moveToVelBlend L R b = ((L - |R| * b) - R, (L - |R| * b) + R) ∧
      (moveToVelBlend L R b).2 - (moveToVelBlend L R b).1 = 2 * R ∧
      ((moveToVelBlend L R b).1 + (moveToVelBlend L R b).2) / 2 = L - |R| * b ∧
      (0 ≤ b → ((moveToVelBlend L R b).1 + (moveToVelBlend L R b).2) / 2 ≤ L)) ∧
    (∀ timeout (rConstants : pidConstants α) rotationCut initError
        (poss : Nat → coordinate α) (heading clock : Nat → α) (k : Nat)
        (s : MoveToState α),
      clock k < timeout →
      (moveToBody u target timeout rConstants b rotationCut initError poss
        heading clock k s).cmds =
        [Cmd.spinDiffy
          (moveToVelBlend (moveToLinearVel u target poss heading k s)
            (moveToRotationVel u target rConstants rotationCut initError poss
              heading k s) b).2
          (moveToVelBlend (moveToLinearVel u target poss heading k s)
            (moveToRotationVel u target rConstants rotationCut initError poss
              heading k s) b).1]) := by
  refine ⟨rfl, ?_, ?_⟩
  · intro L R
    refine ⟨rfl, ?_, ?_, ?_⟩
    · simp only [moveToVelBlend]; ring
    · simp only [moveToVelBlend]; ring
    · intro hb
      have h : ((moveToVelBlend L R b).1 + (moveToVelBlend L R b).2) / 2
          = L - |R| * b := by
        simp only [moveToVelBlend]; ring
      rw [h]
      have := mul_nonneg (abs_nonneg R) hb
      linarith
  · intro timeout rConstants rotationCut initError poss heading clock k s hk
    simp only [moveToBody, hk, if_true, moveToVelBlend, moveToLinearVel,
      moveToRotationVel]

/-! ## The angular gain of `autoDrive` -/

/-- The state of `autoDrive` at the start of tick `k`: the heading of the
previous tick, the constants of the angular controller equal to the local
`acons`, whose P gain is 0 once an earlier error was below 0.5 and which is
the caller's otherwise. -/
theorem autoDrive_state (u : Util α) (target heading timeout : α)
    (lCons acons : pidConstants α) (heading0 : α)
    (imu rotation clock : Nat → α) :
    ∀ (k : Nat) (s : AutoDriveState α),
      stateAfter (autoDriveBody u target heading timeout imu rotation clock)
        ⟨heading0, acons, pid.init lCons (u.minError heading heading0),
          pid.init acons target⟩ k = some s →
      s.currHeading = (if k = 0 then heading0 else imu (k - 1)) ∧
      s.angularController.constants = s.acons ∧
      ((∃ j, j < k ∧ autoDriveError u heading heading0 imu j < 0.5) →
        s.acons.p = 0) ∧
      ((∀ j, j < k → ¬ autoDriveError u heading heading0 imu j < 0.5) →
        s.acons = acons) := by
  intro k
  induction k with
  | zero =>
    intro s hs
    simp only [stateAfter, Option.some.injEq] at hs
    subst hs
    refine ⟨rfl, rfl, ?_, fun _ => rfl⟩
    rintro ⟨j, hj, _⟩
    omega
  | succ k ih =>
    intro s hs
    rw [stateAfter] at hs
    cases hk : stateAfter (autoDriveBody u target heading timeout imu rotation clock)
        ⟨heading0, acons, pid.init lCons (u.minError heading heading0),
          pid.init acons target⟩ k with
    | none => rw [hk] at hs; cases hs
    | some s0 =>
      rw [hk] at hs
      obtain ⟨hcur, hcons, hz, hnz⟩ := ih s0 hk
      have herr : u.minError heading s0.currHeading
          = autoDriveError u heading heading0 imu k := by
        rw [hcur]; rfl
      simp only [Option.some_bind, autoDriveBody, ge_iff_le] at hs
      split at hs
      · cases hs
      · simp only [Option.some.injEq] at hs
        subst hs
        refine ⟨by simp, ?_, ?_, ?_⟩
        · simp only [pid.out, pid.update]
          split <;> simp [hcons]
        · rintro ⟨j, hj, hlt⟩
          simp only
          rcases Nat.lt_or_ge j k with hjk | hjk
          · have h0 := hz ⟨j, hjk, hlt⟩
            split
            · rfl
            · exact h0
          · have hjk' : j = k := by omega
            subst hjk'
            rw [if_pos (herr ▸ hlt)]
        · intro hall
          simp only
          rw [if_neg (herr ▸ hall k (Nat.lt_succ_self k))]
          exact hnz (fun j hj => hall j (by omega))

/-- C12. In `autoDrive`, on every tick `k` that the loop reaches (no earlier
tick has reached the timeout): if the heading error of tick `k` or of an
earlier tick was below 0.5, the P gain of the angular controller on tick `k`
is 0, whatever the error of tick `k`; if no error up to tick `k` was below
0.5, it is the caller's `acons.p`. -/
theorem autoDrive_gain_latched (u : Util α) (target heading timeout : α)
    (lCons acons : pidConstants α) (heading0 : α)
    (imu rotation clock : Nat → α) (k : Nat)
    (hclock : ∀ j, j < k → clock j < timeout) :
    ∃ s, stateAfter (autoDriveBody u target heading timeout imu rotation clock)
        ⟨heading0, acons, pid.init lCons (u.minError heading heading0),
          pid.init acons target⟩ k = some s ∧
      ((∃ j, j ≤ k ∧ autoDriveError u heading heading0 imu j < 0.5) →
        (autoDriveAngular u heading s).constants.p = 0) ∧
      ((∀ j, j ≤ k → ¬ autoDriveError u heading heading0 imu j < 0.5) →
        (autoDriveAngular u heading s).constants.p = acons.p) := by
  have hex : ∀ k, (∀ j, j < k → clock j < timeout) →
      ∃ s, stateAfter (autoDriveBody u target heading timeout imu rotation clock)
        ⟨heading0, acons, pid.init lCons (u.minError heading heading0),
          pid.init acons target⟩ k = some s := by
    intro k
    induction k with
    | zero => intro _; exact ⟨_, rfl⟩
    | succ k ih =>
      intro h
      obtain ⟨s, hs⟩ := ih (fun j hj => h j (by omega))
      have hnot : ¬ timeout ≤ clock k := not_le.mpr (h k (Nat.lt_succ_self k))
      cases hn : (autoDriveBody u target heading timeout imu rotation clock k s).next with
      | none =>
        exact absurd ((autoDriveBody_next u target heading timeout imu rotation
          clock k s).1 hn) hnot
      | some s' =>
        exact ⟨s', by rw [stateAfter, hs]; exact hn⟩
  obtain ⟨s, hs⟩ := hex k hclock
  obtain ⟨hcur, hcons, hz, hnz⟩ :=
    autoDrive_state u target heading timeout lCons acons heading0 imu rotation
      clock k s hs
  have herr : u.minError heading s.currHeading
      = autoDriveError u heading heading0 imu k := by
    rw [hcur]; rfl
  refine ⟨s, hs, ?_, ?_⟩
  · rintro ⟨j, hj, hlt⟩
    unfold autoDriveAngular
    simp only
    rcases Nat.lt_or_ge j k with hjk | hjk
    · have h0 := hz ⟨j, hjk, hlt⟩
      split
      · simp [pid.update]
      · rw [hcons]; exact h0
    · have hjk' : j = k := by omega
      subst hjk'
      have hlt' : u.minError heading s.currHeading < 0.5 := herr ▸ hlt
      simp [pid.update, hlt']
  · intro hall
    unfold autoDriveAngular
    simp only
    rw [if_neg (herr ▸ hall k (le_refl k)), hcons,
      hnz (fun j hj => hall j (by omega))]

/-! ## Commands and states of a run -/

/-- The commands of the iterations of a loop are those of the body in the
states that `stateAfter` gives. -/
theorem iterate_ticks_state {σ β : Type} (body : Nat → σ → Tick σ β) (s0 : σ) :
    ∀ (fuel k0 : Nat) (s : σ) (n : Nat) (ticks : List (List (Cmd β))),
      stateAfter body s0 k0 = some s →
      iterate body fuel k0 s = some (n, ticks) →
      ∀ i, i < ticks.length → ∃ s',
        stateAfter body s0 (k0 + i) = some s' ∧
        ticks.get? i = some (body (k0 + i) s').cmds := by
  intro fuel
  induction fuel with
  | zero => intro k0 s n ticks _ h; simp [iterate] at h
  | succ fuel ih =>
    intro k0 s n ticks hst h i hi
    rw [iterate] at h
    cases hb : (body k0 s).next with
    | none =>
      rw [hb] at h
      simp only [Option.some.injEq, Prod.mk.injEq] at h
      obtain ⟨_, rfl⟩ := h
      simp only [List.length_singleton, Nat.lt_one_iff] at hi
      subst hi
      exact ⟨s, hst, by simp⟩
    | some s1 =>
      rw [hb] at h
      simp only [Option.map_eq_some', Prod.mk.injEq] at h
      obtain ⟨⟨n', t'⟩, hr, _, rfl⟩ := h
      cases i with
      | zero => exact ⟨s, hst, by simp⟩
      | succ i =>
        have hst1 : stateAfter body s0 (k0 + 1) = some s1 := by
          rw [stateAfter, hst]; exact hb
        have hi' : i < t'.length := by simpa using hi
        obtain ⟨s', h1, h2⟩ := ih (k0 + 1) s1 n' t' hst1 hr i hi'
        have e : k0 + (i + 1) = k0 + 1 + i := by omega
        refine ⟨s', by rw [e]; exact h1, ?_⟩
        rw [e]
        simpa using h2

/-- The commands of iteration `i` of a finished call are those of the body in
the state in which iteration `i` starts. -/
theorem runLoop_ticks_state {σ β : Type} (body : Nat → σ → Tick σ β) (s0 : σ)
    (after : List (Cmd β)) (fuel : Nat) (r : Run β)
    (h : runLoop body s0 after fuel = some r) (i : Nat) (hi : i ≤ r.exitIter) :
    ∃ s, stateAfter body s0 i = some s ∧ r.ticks.get? i = some (body i s).cmds := by
  obtain ⟨_, hit⟩ := runLoop_some body s0 after fuel r h
  obtain ⟨_, hlen, _⟩ := iterate_some body fuel 0 s0 r.exitIter r.ticks hit
  obtain ⟨s, h1, h2⟩ :=
    iterate_ticks_state body s0 fuel 0 s0 r.exitIter r.ticks rfl hit i (by omega)
  rw [Nat.zero_add] at h1 h2
  exact ⟨s, h1, h2⟩

/-! ## `odomDrive` -/

/-- C13. With `sin` and `cos` on the unit circle and `distToPoint` the
Euclidean distance: the target of `odomDrive`,
`(sin(2*PI - h)*(-d) + x, cos(2*PI - h)*(-d) + y)`, lies at distance `|d|`
from the start position `(x, y)`; the error `dist - (dist - distToPoint(pos,
target))` of a tick is the distance from the current position to the target,
so it is not negative, and it is `|d|` at the start position; it is the error
from which the tick forms its command. -/
theorem odomDrive_target_error (u : Util α) (distance heading0 : α)
    (pos0 : coordinate α)
    (hsc : ∀ a, u.sin a ^ 2 + u.cos a ^ 2 = 1)
    (hd : ∀ a b : coordinate α, 0 ≤ u.distToPoint a b ∧
      u.distToPoint a b ^ 2 = (a.x - b.x) ^ 2 + (a.y - b.y) ^ 2) :
    odomDriveTarget u distance heading0 pos0 =
      ⟨u.sin (2 * u.PI - heading0) * (-distance) + pos0.x,
        u.cos (2 * u.PI - heading0) * (-distance) + pos0.y⟩ ∧
    u.distToPoint pos0 (odomDriveTarget u distance heading0 pos0) = |distance| ∧
    (∀ pos : coordinate α,
      odomDriveError u distance pos (odomDriveTarget u distance heading0 pos0) =
        u.distToPoint pos (odomDriveTarget u distance heading0 pos0) ∧
      0 ≤ odomDriveError u distance pos (odomDriveTarget u distance heading0 pos0)) ∧
    odomDriveError u distance pos0 (odomDriveTarget u distance heading0 pos0)
      = |distance| ∧
    (∀ timeout tolerance (pos : Nat → coordinate α) (clock : Nat → α) (k : Nat)
        (s : OdomDriveState α),
      ∃ integral : α,
        (odomDriveBody u distance timeout tolerance
          (odomDriveTarget u distance heading0 pos0) pos clock k s).cmds =
          [Cmd.spin
            (odomDriveError u distance (pos k)
                (odomDriveTarget u distance heading0 pos0) * 2.1 +
              integral * 0 +
              (odomDriveError u distance (pos k)
                (odomDriveTarget u distance heading0 pos0) - s.prevError) * 0.1)]) := by
  have herr : ∀ pos target : coordinate α,
      odomDriveError u distance pos target = u.distToPoint pos target := by
    intro pos target
    simp only [odomDriveError]
    ring
  have hdist : u.distToPoint pos0 (odomDriveTarget u distance heading0 pos0)
      = |distance| := by
    obtain ⟨h0, hsq⟩ := hd pos0 (odomDriveTarget u distance heading0 pos0)
    have hsq' : u.distToPoint pos0 (odomDriveTarget u distance heading0 pos0) ^ 2
        = distance ^ 2 := by
      rw [hsq]
      simp only [odomDriveTarget]
      have := hsc (2 * u.PI - heading0)
      calc (pos0.x - (u.sin (2 * u.PI - heading0) * -distance + pos0.x)) ^ 2 +
            (pos0.y - (u.cos (2 * u.PI - heading0) * -distance + pos0.y)) ^ 2
          = distance ^ 2 * (u.sin (2 * u.PI - heading0) ^ 2 +
              u.cos (2 * u.PI - heading0) ^ 2) := by ring
        _ = distance ^ 2 := by rw [this, mul_one]
    have habs := (sq_eq_sq_iff_abs_eq_abs _ _).mp hsq'
    rw [abs_of_nonneg h0] at habs
    exact habs
  refine ⟨rfl, hdist, ?_, ?_, ?_⟩
  · intro pos
    rw [herr]
    exact ⟨rfl, (hd _ _).1⟩
  · rw [herr]; exact hdist
  · intro timeout tolerance pos clock k s
    exact ⟨_, rfl⟩

/-! ## `drive` -/

/-- The state of `drive` at the start of tick `k`: the integral is 0 and the
previous error is that of tick `k - 1`. -/
theorem drive_state (target timeout prevError0 : α) (rotation clock : Nat → α) :
    ∀ (k : Nat) (s : DriveState α),
      stateAfter (driveBody target timeout rotation clock) ⟨0, prevError0⟩ k
        = some s →
      s.integral = 0 ∧
      s.prevError = (if k = 0 then prevError0 else target - rotation (k - 1)) := by
  intro k
  induction k with
  | zero =>
    intro s hs
    simp only [stateAfter, Option.some.injEq] at hs
    subst hs
    exact ⟨rfl, rfl⟩
  | succ k ih =>
    intro s hs
    rw [stateAfter] at hs
    cases hk : stateAfter (driveBody target timeout rotation clock)
        ⟨0, prevError0⟩ k with
    | none => rw [hk] at hs; cases hs
    | some s0 =>
      rw [hk] at hs
      obtain ⟨hint, _⟩ := ih s0 hk
      simp only [Option.some_bind, driveBody, ge_iff_le] at hs
      split at hs
      · cases hs
      · simp only [Option.some.injEq] at hs
        subst hs
        refine ⟨?_, by simp⟩
        simp only [hint]
        norm_num

/-- C14. On every tick of `drive` the integral is 0, and the two values passed
to `spinDiffy` are equal, both `0.3*e + 2.4*(e - prevError)` with
`e = target - rotation` and `prevError` the error of the previous tick (the
uninitialised local on tick 0). The `tolerance` argument does not change the
call: the same commands and exit iteration, which is the first iteration
whose clock reading has reached the timeout. -/
theorem drive_command_law (target timeout prevError0 : α)
    (rotation clock : Nat → α) :
    (∀ (k : Nat) (s : DriveState α),
      stateAfter (driveBody target timeout rotation clock) ⟨0, prevError0⟩ k
        = some s →
      s.integral = 0) ∧
    (∀ tolerance fuel r,
      drive target timeout tolerance prevError0 rotation clock fuel = some r →
      ∀ i, i ≤ r.exitIter →
        r.ticks.get? i = some
          [Cmd.spinDiffy
            (0.3 * (target - rotation i) + 2.4 * ((target - rotation i) -
              (if i = 0 then prevError0 else target - rotation (i - 1))))
            (0.3 * (target - rotation i) + 2.4 * ((target - rotation i) -
              (if i = 0 then prevError0 else target - rotation (i - 1))))]) ∧
    (∀ tolerance₁ tolerance₂ fuel,
      drive target timeout tolerance₁ prevError0 rotation clock fuel =
        drive target timeout tolerance₂ prevError0 rotation clock fuel) ∧
    (∀ tolerance n, timeout ≤ clock n → (∀ j, j < n → clock j < timeout) →
      ExitsAt (drive target timeout tolerance prevError0 rotation clock) n) := by
  refine ⟨fun k s hs => (drive_state target timeout prevError0 rotation clock k s hs).1,
    ?_, fun _ _ _ => rfl, ?_⟩
  · intro tolerance fuel r hr i hi
    obtain ⟨s, hs, hticks⟩ := runLoop_ticks_state _ _ _ fuel r hr i hi
    obtain ⟨hint, hprev⟩ := drive_state target timeout prevError0 rotation clock i s hs
    rw [hticks]
    simp only [driveBody, driveOut, hint, hprev, Option.some.injEq, List.cons.injEq,
      Cmd.spinDiffy.injEq, and_true]
    norm_num
    ring
  · intro tolerance n hn hfirst fuel hf
    obtain ⟨r, hr, hex, _⟩ :=
      runLoop_exits_at (driveBody target timeout rotation clock) ⟨0, prevError0⟩
        [Cmd.stop "b"] n
        (fun s => (driveBody_next target timeout rotation clock n s).2 hn)
        (fun j hj s h =>
          absurd ((driveBody_next target timeout rotation clock j s).1 h)
            (not_le.mpr (hfirst j hj)))
        fuel hf
    exact ⟨r, hr, hex⟩

/-! ## `moveToPose` and its table -/

/-- The commands of a tick of `moveToPose`: the pair of `moveToVel` for the
table entry `lut[t - 1]`. -/
theorem moveToPoseBody_cmds [FloorRing α] (u : Util α)
    (lut : List (coordinate α)) (oob : ℤ → coordinate α) (curveLength : α)
    (pos : Nat → coordinate α) (heading : Nat → α) (k : Nat)
    (s : MoveToPoseState α) :
    (moveToPoseBody u lut oob curveLength pos heading k s).cmds =
      [Cmd.spinDiffy
        (moveToVel u (pos k) (heading k)
          (lutAt lut oob
            (moveToPoseT (s.distTraveled + u.distToPoint s.prevPos (pos k))
              curveLength - 1)) 0.1 0.1 0.1).2
        (moveToVel u (pos k) (heading k)
          (lutAt lut oob
            (moveToPoseT (s.distTraveled + u.distToPoint s.prevPos (pos k))
              curveLength - 1)) 0.1 0.1 0.1).1] := rfl

/-- With a positive curve length, a travelled distance that does not exceed
it gives a sample number of at most 100. -/
theorem moveToPoseT_le (distTraveled curveLength : α) [FloorRing α]
    (hc : 0 < curveLength) (hd : distTraveled ≤ curveLength) :
    moveToPoseT distTraveled curveLength ≤ 100 := by
  unfold moveToPoseT
  simp only
  rw [Int.ceil_le]
  have h1 : distTraveled / curveLength ≤ 1 := (div_le_one hc).mpr hd
  push_cast
  linarith

/-- C15. In `moveToPose` with a table of 101 samples (`resolution = 100`), on
every tick, with `t = ceil(distTraveled / curveLength * 100)` for the distance
travelled up to this tick: the loop is left at the end of the tick exactly
when `t = 101`, which is exactly when the index `t - 1` of the target point
of the tick is 100; the target point is then the last sample of the table;
and for a positive curve length the loop is not left on a tick with
`distTraveled ≤ curveLength`. -/
theorem moveToPose_exit_iff [FloorRing α] (u : Util α)
    (lut : List (coordinate α)) (oob : ℤ → coordinate α) (curveLength : α)
    (pos : Nat → coordinate α) (heading : Nat → α) (k : Nat)
    (s : MoveToPoseState α) (hlen : lut.length = 101) :
    ((moveToPoseBody u lut oob curveLength pos heading k s).next = none ↔
      moveToPoseT (s.distTraveled + u.distToPoint s.prevPos (pos k)) curveLength
        = 101) ∧
    (moveToPoseT (s.distTraveled + u.distToPoint s.prevPos (pos k)) curveLength
        = 101 ↔
      moveToPoseT (s.distTraveled + u.distToPoint s.prevPos (pos k)) curveLength
        - 1 = 100) ∧
    (moveToPoseT (s.distTraveled + u.distToPoint s.prevPos (pos k)) curveLength
        = 101 →
      some (lutAt lut oob
        (moveToPoseT (s.distTraveled + u.distToPoint s.prevPos (pos k))
          curveLength - 1)) = lut.getLast? ∧
      (moveToPoseBody u lut oob curveLength pos heading k s).cmds =
        [Cmd.spinDiffy
          (moveToVel u (pos k) (heading k) (lutAt lut oob 100) 0.1 0.1 0.1).2
          (moveToVel u (pos k) (heading k) (lutAt lut oob 100) 0.1 0.1 0.1).1]) ∧
    (0 < curveLength →
      s.distTraveled + u.distToPoint s.prevPos (pos k) ≤ curveLength →
      (moveToPoseBody u lut oob curveLength pos heading k s).next ≠ none) := by
  have hnext : (moveToPoseBody u lut oob curveLength pos heading k s).next = none ↔
      moveToPoseT (s.distTraveled + u.distToPoint s.prevPos (pos k)) curveLength
        = 101 := by
    rw [moveToPoseBody_next, hlen]
    split
    · next h => simpa using h
    · next h =>
      constructor
      · intro h'; cases h'
      · intro h'; exact absurd (by simpa using h') h
  refine ⟨hnext, by constructor <;> intro h <;> omega, ?_, ?_⟩
  · intro ht
    constructor
    · rw [ht]
      have h100 : (100 : ℕ) < lut.length := by omega
      have hlast : lut.getLast? = lut[100]? := by
        rw [List.getLast?_eq_getElem?, hlen]
      have hnat : Int.toNat 100 = 100 := rfl
      rw [hlast]
      simp only [lutAt, List.get?_eq_getElem?]
      norm_num
      rw [hnat, List.getElem?_eq_getElem h100]
      rfl
    · rw [moveToPoseBody_cmds, ht]
      norm_num
  · intro hc hd h
    have := moveToPoseT_le _ curveLength hc hd
    rw [hnext] at h
    omega

/-! ## `timedSpin` -/

/-- The commands of a tick of `timedSpin`. -/
theorem timedSpinBody_cmds (u : Util α) (target speed timeout : α) (initDir : ℤ)
    (heading clock : Nat → α) (k : Nat) (s : Unit) :
    (timedSpinBody u target speed timeout initDir heading clock k s).cmds =
      [Cmd.spinDiffy (((-u.dirToSpin target (heading k) : ℤ) : α) * speed)
        (-(((-u.dirToSpin target (heading k) : ℤ) : α) * speed))] := by
  simp only [timedSpinBody, List.cons.injEq, Cmd.spinDiffy.injEq, and_true, true_and]
  ring

/-- C16. With `dir = -dirToSpin(target, heading)` on each tick: every command
of `timedSpin` is `spinDiffy(dir*speed, -(dir*speed))`, of magnitude `|speed|`
on both sides when `dirToSpin` returns 1 or -1; and the last iteration of the
loop, which issues its command too, is the first one at which `dir` differs
from the direction computed before the loop or the clock reading has reached
the timeout. -/
theorem timedSpin_open_loop (u : Util α) (target speed timeout heading0 : α)
    (heading clock : Nat → α) :
    (∀ k s,
      (timedSpinBody u target speed timeout (-u.dirToSpin target heading0)
        heading clock k s).cmds =
        [Cmd.spinDiffy (((-u.dirToSpin target (heading k) : ℤ) : α) * speed)
          (-(((-u.dirToSpin target (heading k) : ℤ) : α) * speed))]) ∧
    (∀ k, (u.dirToSpin target (heading k) = 1 ∨ u.dirToSpin target (heading k) = -1) →
      |((-u.dirToSpin target (heading k) : ℤ) : α) * speed| = |speed| ∧
      |-(((-u.dirToSpin target (heading k) : ℤ) : α) * speed)| = |speed|) ∧
    (∀ n,
      (-u.dirToSpin target heading0 ≠ -u.dirToSpin target (heading n) ∨
        timeout ≤ clock n) →
      (∀ j, j < n →
        ¬ (-u.dirToSpin target heading0 ≠ -u.dirToSpin target (heading j) ∨
          timeout ≤ clock j)) →
      ∀ fuel, n < fuel → ∃ r,
        timedSpin u target speed timeout heading0 heading clock fuel = some r ∧
        r.exitIter = n ∧ r.ticks.length = n + 1 ∧
        ∀ i, i ≤ n →
          r.ticks.get? i = some
            [Cmd.spinDiffy (((-u.dirToSpin target (heading i) : ℤ) : α) * speed)
              (-(((-u.dirToSpin target (heading i) : ℤ) : α) * speed))]) := by
  refine ⟨fun k s => timedSpinBody_cmds u target speed timeout _ heading clock k s,
    ?_, ?_⟩
  · intro k hd
    have h1 : |((-u.dirToSpin target (heading k) : ℤ) : α)| = 1 := by
      rcases hd with h | h <;> rw [h] <;> simp
    rw [abs_neg, abs_mul, h1, one_mul]
    exact ⟨rfl, rfl⟩
  · intro n hn hfirst fuel hf
    obtain ⟨r, hr, hex, _, hlen, hall⟩ :=
      runLoop_exits_at
        (timedSpinBody u target speed timeout (-u.dirToSpin target heading0)
          heading clock) () [Cmd.stop "b"] n
        (fun s => (timedSpinBody_next u target speed timeout _ heading clock n s).2 hn)
        (fun j hj s h =>
          hfirst j hj
            ((timedSpinBody_next u target speed timeout _ heading clock j s).1 h))
        fuel hf
    refine ⟨r, hr, hex, hlen, ?_⟩
    intro i hi
    obtain ⟨s, hs⟩ := hall i hi
    rw [hs, timedSpinBody_cmds]

/-! ## The clip of `autoDrive` and the clamp of `arcTurn` -/

/-- For a positive curve length the sample number `t` does not decrease when
the distance travelled does not. -/
theorem moveToPoseT_mono [FloorRing α] (d₁ d₂ curveLength : α)
    (hc : 0 < curveLength) (h : d₁ ≤ d₂) :
    moveToPoseT d₁ curveLength ≤ moveToPoseT d₂ curveLength := by
  unfold moveToPoseT
  simp only
  apply Int.ceil_le_ceil
  have h1 : d₁ / curveLength ≤ d₂ / curveLength :=
    div_le_div_of_nonneg_right h hc.le
  linarith

/-- The state of `moveToPose` at the start of a tick that follows another:
the distance travelled and the position of the earlier tick. -/
theorem moveToPose_next_state [FloorRing α] (u : Util α)
    (lut : List (coordinate α)) (oob : ℤ → coordinate α) (curveLength : α)
    (pos0 : coordinate α) (pos : Nat → coordinate α) (heading : Nat → α)
    (k : Nat) (s s' : MoveToPoseState α)
    (hs : stateAfter (moveToPoseBody u lut oob curveLength pos heading)
      ⟨0, pos0⟩ k = some s)
    (hs' : stateAfter (moveToPoseBody u lut oob curveLength pos heading)
      ⟨0, pos0⟩ (k + 1) = some s') :
    s' = ⟨s.distTraveled + u.distToPoint s.prevPos (pos k), pos k⟩ := by
  rw [stateAfter, hs, Option.some_bind, moveToPoseBody_next] at hs'
  split at hs'
  · cases hs'
  · simp only [Option.some.injEq] at hs'
    exact hs'.symm

/-- With a `distToPoint` that is never negative, the distance travelled with
which a tick of `moveToPose` starts is not negative. -/
theorem moveToPose_dist_nonneg [FloorRing α] (u : Util α)
    (lut : List (coordinate α)) (oob : ℤ → coordinate α) (curveLength : α)
    (pos0 : coordinate α) (pos : Nat → coordinate α) (heading : Nat → α)
    (hd : ∀ a b, 0 ≤ u.distToPoint a b) :
    ∀ (k : Nat) (s : MoveToPoseState α),
      stateAfter (moveToPoseBody u lut oob curveLength pos heading)
        ⟨0, pos0⟩ k = some s →
      0 ≤ s.distTraveled := by
  intro k
  induction k with
  | zero =>
    intro s hs
    simp only [stateAfter, Option.some.injEq] at hs
    subst hs
    exact le_refl _
  | succ k ih =>
    intro s hs
    cases hk : stateAfter (moveToPoseBody u lut oob curveLength pos heading)
        ⟨0, pos0⟩ k with
    | none => rw [stateAfter, hk] at hs; cases hs
    | some s0 =>
      rw [moveToPose_next_state u lut oob curveLength pos0 pos heading k s0 s hk hs]
      exact add_nonneg (ih s0 hk) (hd _ _)

/-- C21. In `moveToPose`, with a positive curve length and a `distToPoint` that
is never negative, for every sequence of position readings: on every tick the
loop reaches, the distance travelled is not negative and not below its value
before the tick; and when the loop reaches the next tick too, the distance
travelled on it is not below that of this tick, and neither is the sample
number `t = ceil(distTraveled / curveLength * 100)`, so that the index
`t - 1` of the target point does not go back. -/
theorem moveToPose_progress_monotone [FloorRing α] (u : Util α)
    (lut : List (coordinate α)) (oob : ℤ → coordinate α) (curveLength : α)
    (pos0 : coordinate α) (pos : Nat → coordinate α) (heading : Nat → α)
    (hc : 0 < curveLength) (hd : ∀ a b, 0 ≤ u.distToPoint a b)
    (k : Nat) (s : MoveToPoseState α)
    (hs : stateAfter (moveToPoseBody u lut oob curveLength pos heading)
      ⟨0, pos0⟩ k = some s) :
    0 ≤ s.distTraveled + u.distToPoint s.prevPos (pos k) ∧
    s.distTraveled ≤ s.distTraveled + u.distToPoint s.prevPos (pos k) ∧
    ∀ s' : MoveToPoseState α,
      stateAfter (moveToPoseBody u lut oob curveLength pos heading)
        ⟨0, pos0⟩ (k + 1) = some s' →
      s'.distTraveled = s.distTraveled + u.distToPoint s.prevPos (pos k) ∧
      s.distTraveled + u.distToPoint s.prevPos (pos k) ≤
        s'.distTraveled + u.distToPoint s'.prevPos (pos (k + 1)) ∧
      moveToPoseT (s.distTraveled + u.distToPoint s.prevPos (pos k)) curveLength ≤
        moveToPoseT (s'.distTraveled + u.distToPoint s'.prevPos (pos (k + 1)))
          curveLength ∧
      moveToPoseT (s.distTraveled + u.distToPoint s.prevPos (pos k)) curveLength - 1 ≤
        moveToPoseT (s'.distTraveled + u.distToPoint s'.prevPos (pos (k + 1)))
          curveLength - 1 := by
  have h0 := moveToPose_dist_nonneg u lut oob curveLength pos0 pos heading hd k s hs
  have h1 := hd s.prevPos (pos k)
  refine ⟨add_nonneg h0 h1, le_add_of_nonneg_right h1, ?_⟩
  intro s' hs'
  have hst := moveToPose_next_state u lut oob curveLength pos0 pos heading k s s' hs hs'
  have hd' : s'.distTraveled = s.distTraveled + u.distToPoint s.prevPos (pos k) := by
    rw [hst]
  have hle : s.distTraveled + u.distToPoint s.prevPos (pos k) ≤
      s'.distTraveled + u.distToPoint s'.prevPos (pos (k + 1)) := by
    rw [hd']
    exact le_add_of_nonneg_right (hd _ _)
  have ht := moveToPoseT_mono _ _ curveLength hc hle
  exact ⟨hd', hle, ht, by omega⟩

end FieldProperties

/-- Witness of C1: `arcTurn(1, 500, 3000, pidConstants(2.8, 0, 20, 0.05, 5, 100))`
on its first tick with the heading sensor at 0. -/
theorem arcTurn_wheel_ratio_witness :
    ((500 : ℚ) + DL ≠ 0 ∧ (500 : ℚ) + DR ≠ 0 ∧
      ((500 : ℚ) + DL) / (500 + DR) ≠ -1 ∧ (1 : ℚ) ≠ 0 ∧
      arcTurnVel ratUtil (ratUtil.rtd 1) 0
        (pid.init ⟨2.8, 0, 20, 0.05, 5, 100⟩ 1000) ≠ 0) ∧
    ∃ rvel lvel,
      (arcTurnBody ratUtil 1 500 3000 (fun _ => 0) (fun k => 10 * (k : ℚ)) 0
        (pid.init ⟨2.8, 0, 20, 0.05, 5, 100⟩ 1000)).cmds =
        [Cmd.spinDiffy rvel lvel] ∧
      rvel / lvel = ((500 : ℚ) + DR) / (500 + DL) := by
  have h1 : (500 : ℚ) + DL ≠ 0 := by norm_num [DL]
  have h2 : (500 : ℚ) + DR ≠ 0 := by norm_num [DR]
  have h3 : ((500 : ℚ) + DL) / (500 + DR) ≠ -1 := by norm_num [DL, DR]
  have h4 : (1 : ℚ) ≠ 0 := by norm_num
  have h5 : arcTurnVel ratUtil (ratUtil.rtd 1) 0
      (pid.init ⟨2.8, 0, 20, 0.05, 5, 100⟩ 1000) ≠ 0 := by
    norm_num [arcTurnVel, arcTurnClamp, ratUtil, pid.init, pid.out, pidIntegral,
      specMinError, specDirToSpin, abs_of_nonneg, abs_of_neg]
  exact ⟨⟨h1, h2, h3, h4, h5⟩,
    arcTurn_wheel_ratio ratUtil 1 500 3000 (fun _ => 0) (fun k => 10 * (k : ℚ)) 0
      (pid.init ⟨2.8, 0, 20, 0.05, 5, 100⟩ 1000) h1 h2 h3 h4 h5⟩

/-- Witness of C3: `spinTo(90, 1000)` with the default constants and a heading
sensor stuck at 0. -/
theorem spinTo_exits_within_one_tick_witness :
    (0 : ℚ) ≤ 1000 ∧
    ∃ n : Nat, (1000 : ℚ) ≤ 10 * (n : ℚ) ∧
      (∀ j : Nat, j < n → 10 * (j : ℚ) < 1000) ∧
      10 * (n : ℚ) < 1000 + 10 ∧
      ∀ fuel, n < fuel → ∃ r,
        spinTo ratUtil 90 1000 ⟨3.7, 1.3, 26, 0.05, 2.4, 20⟩ 0 (fun _ => 0)
          (fun k => 10 * (k : ℚ)) fuel = some r ∧
        r.exitIter = n ∧ r.ticks.get? n = some [] :=
  ⟨by norm_num,
    spinTo_exits_within_one_tick ratUtil 90 1000 ⟨3.7, 1.3, 26, 0.05, 2.4, 20⟩ 0
      (fun _ => 0) (by norm_num)⟩

/-- Counterexample to C5: `spinTo(90, 5000)` with the default constants, the
heading at 90 on every tick and one tick every 10 ms. The error is 0, below
the tolerance 0.05, throughout; iteration 200 starts in the initial state, so
the settle timer, never restarted, has run for 2000 ms = `endTime` while only
2000 of the 5000 ms of timeout have elapsed; the loop goes on, and is left in
iteration 500. -/
theorem spinTo_settled_keeps_running :
    ratUtil.minError 90 90 < (0.05 : ℚ) ∧
    stateAfter
      (spinToBody ratUtil 90 5000 ⟨3.7, 1.3, 26, 0.05, 2.4, 20⟩ (fun _ => 90)
        (fun k => 10 * (k : ℚ))) ⟨0, 0, 0⟩ 200 = some ⟨0, 0, 0⟩ ∧
    (2000 : ℚ) ≤ 10 * ((200 : ℕ) : ℚ) - 0 ∧ 10 * ((200 : ℕ) : ℚ) < 5000 ∧
    (spinToBody ratUtil 90 5000 ⟨3.7, 1.3, 26, 0.05, 2.4, 20⟩ (fun _ => 90)
        (fun k => 10 * (k : ℚ)) 200 ⟨0, 0, 0⟩).next = some ⟨0, 0, 0⟩ ∧
    ∃ r, spinTo ratUtil 90 5000 ⟨3.7, 1.3, 26, 0.05, 2.4, 20⟩ 0 (fun _ => 90)
        (fun k => 10 * (k : ℚ)) 501 = some r ∧ r.exitIter = 500 := by
  have hbody : ∀ k : Nat, k < 500 →
      (spinToBody ratUtil 90 5000 ⟨3.7, 1.3, 26, 0.05, 2.4, 20⟩ (fun _ => 90)
        (fun k => 10 * (k : ℚ)) k ⟨0, 0, 0⟩).next = some ⟨0, 0, 0⟩ := by
    intro k hk
    have hk' : (k : ℚ) < 500 := by exact_mod_cast hk
    have hlt : ¬ (5000 : ℚ) ≤ 10 * (k : ℚ) := by linarith
    norm_num [spinToBody, spinToIntegral, ratUtil, specMinError, hlt]
  have hstate : ∀ k : Nat, k ≤ 500 →
      stateAfter
        (spinToBody ratUtil 90 5000 ⟨3.7, 1.3, 26, 0.05, 2.4, 20⟩ (fun _ => 90)
          (fun k => 10 * (k : ℚ))) ⟨0, 0, 0⟩ k = some ⟨0, 0, 0⟩ := by
    intro k
    induction k with
    | zero => intro _; rfl
    | succ k ih =>
      intro hk
      rw [stateAfter, ih (by omega)]
      exact hbody k (by omega)
  refine ⟨by norm_num [ratUtil, specMinError], hstate 200 (by norm_num),
    by norm_num, by norm_num, hbody 200 (by norm_num), ?_⟩
  obtain ⟨r, hr, hex, _⟩ :=
    spinTo_exit ratUtil 90 5000 ⟨3.7, 1.3, 26, 0.05, 2.4, 20⟩ 0 (fun _ => 90)
      (fun k => 10 * (k : ℚ)) 500 (by norm_num)
      (fun j hj => by
        have : (j : ℚ) < 500 := by exact_mod_cast hj
        show 10 * (j : ℚ) < 5000
        linarith)
      501 (by norm_num)
  exact ⟨r, hr, hex⟩

/-- Witness of C5 (amended): `spinTo(90, 30)` with one tick every 10 ms is left
in iteration 3. -/
theorem spinTo_exits_on_timeout_only_witness :
    ((30 : ℚ) ≤ 10 * ((3 : ℕ) : ℚ) ∧ ∀ j : Nat, j < 3 → 10 * (j : ℚ) < 30) ∧
    ExitsAt
      (spinTo ratUtil 90 30 ⟨3.7, 1.3, 26, 0.05, 2.4, 20⟩ 0 (fun _ => 90)
        (fun k => 10 * (k : ℚ))) 3 := by
  have h1 : (30 : ℚ) ≤ 10 * ((3 : ℕ) : ℚ) := by norm_num
  have h2 : ∀ j : Nat, j < 3 → 10 * (j : ℚ) < 30 := by
    intro j hj
    have : (j : ℚ) < 3 := by exact_mod_cast hj
    linarith
  exact ⟨⟨h1, h2⟩,
    (spinTo_exits_on_timeout_only ratUtil 90 30 ⟨3.7, 1.3, 26, 0.05, 2.4, 20⟩ 0
      (fun _ => 90) (fun k => 10 * (k : ℚ)) 3 h1 h2).1⟩

/-! ## Concrete runs for the timeouts and the final command -/

/-- On the x axis the rational `distToPoint` is the distance of the
abscissas. -/
theorem ratUtil_distToPoint_axis (a b : ℚ) :
    ratUtil.distToPoint ⟨a, 0⟩ ⟨b, 0⟩ = |a - b| := by
  have h : (a - b) ^ 2 + ((0 : ℚ) - 0) ^ 2 = (a - b) * (a - b) := by ring
  show Rat.sqrt ((a - b) ^ 2 + ((0 : ℚ) - 0) ^ 2) = |a - b|
  rw [h]
  exact Rat.sqrt_eq (a - b)

/-- The timeout of the eight primitives at a concrete input: timeout 30 ms,
one tick every 10 ms, `n = 3`. -/
theorem timeout_honored_witness :
    (30 : ℚ) ≤ 10 * ((3 : ℕ) : ℚ) ∧
    ExitsBy
      (spinTo ratUtil 90 30 ⟨3.7, 1.3, 26, 0.05, 2.4, 20⟩ 0 (fun _ => 0)
        (fun k => 10 * (k : ℚ))) 3 ∧
    ExitsBy (drive (-500) 30 1 0 (fun _ => 0) (fun k => 10 * (k : ℚ))) 3 ∧
    ExitsBy
      (velsUntilHeading ratUtil (-30) (-127) 202 4 30 (fun _ => 0)
        (fun k => 10 * (k : ℚ))) 3 := by
  have h : (30 : ℚ) ≤ 10 * ((3 : ℕ) : ℚ) := by norm_num
  have t := timeout_honored ratUtil 30 (fun k => 10 * (k : ℚ)) 3 h
  exact ⟨h, t.1 90 ⟨3.7, 1.3, 26, 0.05, 2.4, 20⟩ 0 (fun _ => 0),
    t.2.1 (-500) 1 0 (fun _ => 0),
    t.2.2.2.2.2.2.1 (-30) (-127) 202 4 (fun _ => 0)⟩

/-- C2, the code at the failing input. `moveToPose` along the straight table
`lineLut` (length 10), called with timeout 0, so that the elapsed time has
reached the timeout from iteration 0 on under every clock. With the robot at
(5, 0) in iteration 0 and at (10.05, 0) afterwards the loop is left in
iteration 1, not 0; with the robot at rest at (5, 0) it is never left,
whatever the fuel. -/
theorem moveToPose_ignores_timeout :
    lineLut.length = 101 ∧
    (∃ r, moveToPose ratUtil lineLut (fun _ => ⟨0, 0⟩) 10 0 0.1 0.1 0.1 ⟨0, 0⟩
        (fun k => if k = 0 then ⟨5, 0⟩ else ⟨201 / 20, 0⟩) (fun _ => 0) 2 = some r ∧
      r.exitIter = 1 ∧ ¬ r.exitIter ≤ 0) ∧
    ∀ fuel, moveToPose ratUtil lineLut (fun _ => ⟨0, 0⟩) 10 0 0.1 0.1 0.1 ⟨0, 0⟩
        (fun _ => ⟨5, 0⟩) (fun _ => 0) fuel = none := by
  have hlen : lineLut.length = 101 := by
    rw [lineLut, List.length_map, List.length_range]
  have c50 : moveToPoseT ((0 : ℚ) + |0 - 5|) 10 = 50 := by
    unfold moveToPoseT
    rw [Int.ceil_eq_iff]; norm_num [abs_of_neg]
  have c101 : moveToPoseT ((0 : ℚ) + |0 - 5| + |5 - 201 / 20|) 10 = 101 := by
    unfold moveToPoseT
    rw [Int.ceil_eq_iff]; norm_num [abs_of_neg]
  have c50' : moveToPoseT ((0 : ℚ) + |0 - 5| + |5 - 5|) 10 = 50 := by
    unfold moveToPoseT
    rw [Int.ceil_eq_iff]; norm_num [abs_of_neg]
  refine ⟨hlen, ?_, ?_⟩
  · have h0 := moveToPoseBody_next ratUtil lineLut (fun _ => ⟨0, 0⟩) 10
      (fun k => if k = 0 then ⟨5, 0⟩ else ⟨201 / 20, 0⟩) (fun _ => 0) 0 ⟨0, ⟨0, 0⟩⟩
    simp only [if_true, ratUtil_distToPoint_axis, c50, hlen] at h0
    rw [if_neg (by norm_num)] at h0
    have h1 := moveToPoseBody_next ratUtil lineLut (fun _ => ⟨0, 0⟩) 10
      (fun k => if k = 0 then ⟨5, 0⟩ else ⟨201 / 20, 0⟩) (fun _ => 0) 1
      ⟨0 + |0 - 5|, ⟨5, 0⟩⟩
    simp only [one_ne_zero, if_false, ratUtil_distToPoint_axis, c101, hlen] at h1
    rw [if_pos (by norm_num)] at h1
    rw [moveToPose, runLoop, iterate_continue _ _ _ _ _ h0, iterate_leave _ _ _ _ h1]
    exact ⟨_, rfl, rfl, by decide⟩
  · intro fuel
    cases fuel with
    | zero => rfl
    | succ fuel =>
      have h0 := moveToPoseBody_next ratUtil lineLut (fun _ => ⟨0, 0⟩) 10
        (fun _ => ⟨5, 0⟩) (fun _ => 0) 0 ⟨0, ⟨0, 0⟩⟩
      simp only [ratUtil_distToPoint_axis, c50, hlen] at h0
      rw [if_neg (by norm_num)] at h0
      have hk : ∀ k, (moveToPoseBody ratUtil lineLut (fun _ => ⟨0, 0⟩) 10
          (fun _ => ⟨5, 0⟩) (fun _ => 0) k ⟨0 + |0 - 5|, ⟨5, 0⟩⟩).next
            = some ⟨0 + |0 - 5|, ⟨5, 0⟩⟩ := by
        intro k
        rw [moveToPoseBody_next]
        simp only [ratUtil_distToPoint_axis, c50', hlen]
        rw [if_neg (by norm_num)]
        norm_num
      rw [moveToPose, runLoop, iterate_continue _ _ _ _ _ h0,
        iterate_stuck _ _ hk fuel 1]
      rfl
/-- Counterexample to C4: the call `velsUntilHeading(-30, -127, 202, 4, 5000)`
of `autons.hpp`, with the heading at 190 in iteration 0 and at 200 in
iteration 1. It returns in iteration 1 and its only, hence last, command is
`spinDiffy(-30, -127)`, not `stop("b")`. -/
theorem velsUntilHeading_returns_without_stop :
    ∃ r, velsUntilHeading ratUtil (-30) (-127) 202 4 5000
        (fun k => if k = 0 then 190 else 200) (fun k => 10 * (k : ℚ)) 2 = some r ∧
      r.exitIter = 1 ∧ r.trace = [Cmd.spinDiffy (-30) (-127)] ∧
      r.trace.getLast? ≠ some (Cmd.stop "b") := by
  refine ⟨⟨1, [[Cmd.spinDiffy (-30) (-127)], []], []⟩, ?_, rfl, rfl, by
    simp [Run.trace]⟩
  norm_num [velsUntilHeading, runLoop, iterate, velsUntilHeadingBody, ratUtil,
    specMinError]

/-- Counterexample to C6: `velsUntilHeading(-30, -127, 202, 4, 5000)`. With the
heading at 198 in iteration 0 the signed minimal error is 4, within the
tolerance 4 in absolute value, yet the loop goes on and is left in iteration
1 (heading 200). With the heading at 300 in iteration 0 the signed minimal
error is -98, not within 4 of the target, yet the loop is left in iteration
0. In both runs the timeout has not elapsed. -/
theorem velsUntilHeading_exit_differs :
    (|specMinError (202 : ℚ) 198| ≤ 4 ∧
      ∃ r, velsUntilHeading ratUtil (-30) (-127) 202 4 5000
          (fun k => if k = 0 then 198 else 200) (fun k => 10 * (k : ℚ)) 2 = some r ∧
        r.exitIter = 1) ∧
    (¬ |specMinError (202 : ℚ) 300| ≤ 4 ∧ (10 * ((0 : ℕ) : ℚ) < 5000) ∧
      ∃ r, velsUntilHeading ratUtil (-30) (-127) 202 4 5000
          (fun _ => 300) (fun k => 10 * (k : ℚ)) 1 = some r ∧
        r.exitIter = 0) := by
  refine ⟨⟨by norm_num [specMinError],
      ⟨1, [[Cmd.spinDiffy (-30) (-127)], []], []⟩, ?_, rfl⟩,
    by norm_num [specMinError, abs_of_neg], by norm_num, ⟨0, [[]], []⟩, ?_, rfl⟩
  · norm_num [velsUntilHeading, runLoop, iterate, velsUntilHeadingBody, ratUtil,
      specMinError]
  · norm_num [velsUntilHeading, runLoop, iterate, velsUntilHeadingBody, ratUtil,
      specMinError]

/-- Witness of C6 (amended): `velsUntilHeading(-30, -127, 202, 4, 5000)` with
the heading at 198, then 200: the loop is left in iteration 1. -/
theorem velsUntilHeading_exit_witness :
    ((ratUtil.minError 202 ((fun k : Nat => if k = 0 then (198 : ℚ) else 200) 1) < 4 ∨
        (5000 : ℚ) ≤ (fun k : Nat => 10 * (k : ℚ)) 1) ∧
      ∀ j, j < 1 →
        ¬ (ratUtil.minError 202 ((fun k : Nat => if k = 0 then (198 : ℚ) else 200) j) < 4 ∨
          (5000 : ℚ) ≤ (fun k : Nat => 10 * (k : ℚ)) j)) ∧
    ExitsAt
      (velsUntilHeading ratUtil (-30) (-127) 202 4 5000
        (fun k => if k = 0 then 198 else 200) (fun k => 10 * (k : ℚ))) 1 := by
  have h1 : ratUtil.minError 202 ((fun k : Nat => if k = 0 then (198 : ℚ) else 200) 1) < 4 ∨
      (5000 : ℚ) ≤ (fun k : Nat => 10 * (k : ℚ)) 1 := by
    left
    norm_num [ratUtil, specMinError]
  have h2 : ∀ j, j < 1 →
      ¬ (ratUtil.minError 202 ((fun k : Nat => if k = 0 then (198 : ℚ) else 200) j) < 4 ∨
        (5000 : ℚ) ≤ (fun k : Nat => 10 * (k : ℚ)) j) := by
    intro j hj
    have : j = 0 := by omega
    subst this
    norm_num [ratUtil, specMinError]
  exact ⟨⟨h1, h2⟩,
    velsUntilHeading_exit ratUtil (-30) (-127) 202 4 5000
      (fun k => if k = 0 then 198 else 200) (fun k => 10 * (k : ℚ)) 1 h1 h2⟩

/-- Witness of C4 (amended): `spinTo(90, 0)` returns in iteration 0 with the
single command `stop("b")`; `drive(-500, 0, 1)` with the rotation sensor at 0
returns in iteration 0 after `spinDiffy(-150, -150)` and `stop("b")`; and
`velsUntilHeading(-30, -127, 202, 4, 5000)` with the heading at 190, then
200, issues `spinDiffy(-30, -127)` only. -/
theorem brake_stop_on_return_witness :
    (spinTo ratUtil 90 0 ⟨3.7, 1.3, 26, 0.05, 2.4, 20⟩ 0 (fun _ => 0)
        (fun k => 10 * (k : ℚ)) 1 = some ⟨0, [[]], [Cmd.stop "b"]⟩ ∧
      (⟨0, [[]], [Cmd.stop "b"]⟩ : Run ℚ).trace.getLast? = some (Cmd.stop "b")) ∧
    (drive (-500) 0 1 (-500) (fun _ => 0) (fun k => 10 * (k : ℚ)) 1
        = some ⟨0, [[Cmd.spinDiffy (-150) (-150)]], [Cmd.stop "b"]⟩ ∧
      (⟨0, [[Cmd.spinDiffy (-150) (-150)]], [Cmd.stop "b"]⟩ : Run ℚ).trace.getLast?
        = some (Cmd.stop "b")) ∧
    (velsUntilHeading ratUtil (-30) (-127) 202 4 5000
        (fun k => if k = 0 then 190 else 200) (fun k => 10 * (k : ℚ)) 2
        = some ⟨1, [[Cmd.spinDiffy (-30) (-127)], []], []⟩ ∧
      ∀ c ∈ (⟨1, [[Cmd.spinDiffy (-30) (-127)], []], []⟩ : Run ℚ).trace,
        c = Cmd.spinDiffy (-30) (-127)) := by
  have h1 : spinTo ratUtil 90 0 ⟨3.7, 1.3, 26, 0.05, 2.4, 20⟩ 0 (fun _ => 0)
      (fun k => 10 * (k : ℚ)) 1 = some ⟨0, [[]], [Cmd.stop "b"]⟩ := by
    norm_num [spinTo, runLoop, iterate, spinToBody]
  have h2 : drive (-500) 0 1 (-500) (fun _ => 0) (fun k => 10 * (k : ℚ)) 1
      = some ⟨0, [[Cmd.spinDiffy (-150) (-150)]], [Cmd.stop "b"]⟩ := by
    norm_num [drive, runLoop, iterate, driveBody, driveOut]
  have h3 : velsUntilHeading ratUtil (-30) (-127) 202 4 5000
      (fun k => if k = 0 then 190 else 200) (fun k => 10 * (k : ℚ)) 2
      = some ⟨1, [[Cmd.spinDiffy (-30) (-127)], []], []⟩ := by
    norm_num [velsUntilHeading, runLoop, iterate, velsUntilHeadingBody, ratUtil,
      specMinError]
  have t1 := brake_stop_on_return ratUtil 1
  have t2 := brake_stop_on_return ratUtil 2
  exact ⟨⟨h1, t1.1 _ _ _ _ _ _ _ h1⟩, ⟨h2, t1.2.1 _ _ _ _ _ _ _ h2⟩,
    ⟨h3, t2.2.2.2.2.2.2.2 _ _ _ _ _ _ _ _ h3⟩⟩

/-! ## Concrete runs for the saturation, the integral and the gain -/

/-- On a vertical line the rational `distToPoint` is the distance of the
ordinates. -/
theorem ratUtil_distToPoint_vertical (x a b : ℚ) :
    ratUtil.distToPoint ⟨x, a⟩ ⟨x, b⟩ = |a - b| := by
  have h : (x - x) ^ 2 + (a - b) ^ 2 = (a - b) * (a - b) := by ring
  show Rat.sqrt ((x - x) ^ 2 + (a - b) ^ 2) = |a - b|
  rw [h]
  exact Rat.sqrt_eq (a - b)

/-- The run `spinTo(90, 10)` with the default constants, the heading at 0 and
one tick every 10 ms. -/
theorem spinTo_run_333 :
    spinTo ratUtil 90 10 ⟨3.7, 1.3, 26, 0.05, 2.4, 20⟩ 90 (fun _ => 0)
        (fun k => 10 * (k : ℚ)) 2
      = some ⟨1, [[Cmd.spinDiffy (-333) 333], []], [Cmd.stop "b"]⟩ := by
  norm_num [spinTo, runLoop, iterate, spinToBody, spinToOut, spinToIntegral,
    ratUtil, specMinError, specDirToSpin]

/-- The run `drive(-500, 0, 1)` with the rotation sensor at 0. -/
theorem drive_run_150 :
    drive (-500) 0 1 (-500) (fun _ => 0) (fun k => 10 * (k : ℚ)) 1
      = some ⟨0, [[Cmd.spinDiffy (-150) (-150)]], [Cmd.stop "b"]⟩ := by
  norm_num [drive, runLoop, iterate, driveBody, driveOut]

/-- The run `autoDrive(-500, 0, 0)` with the default constants, heading and
rotation at 0. -/
theorem autoDrive_run_3873 :
    autoDrive ratUtil (-500) 0 0 ⟨0.3, 0.2, 2.4, 5, 30, 1000⟩
        ⟨4, 0.7, 4, 0, 190, 20⟩ 0 (fun _ => 0) (fun _ => 0)
        (fun k => 10 * (k : ℚ)) 1
      = some ⟨0, [[Cmd.spinDiffy 127 (-3873)]], [Cmd.stop "b"]⟩ := by
  norm_num [autoDrive, runLoop, iterate, autoDriveBody, autoDriveClip, ratUtil,
    specMinError, specDirToSpin, pid.init, pid.out, pid.update, pidIntegral,
    abs_of_nonneg, abs_of_neg]

/-- The first tick of `arcTurn(1, 500, 3000, pidConstants(2.8, 0, 20, 0.05, 5,
100))` with the heading at 0. -/
theorem arcTurn_tick_219 :
    (arcTurnBody ratUtil 1 500 3000 (fun _ => 0) (fun k => 10 * (k : ℚ)) 0
      (pid.init ⟨2.8, 0, 20, 0.05, 5, 100⟩ 1000)).cmds =
      [Cmd.spinDiffy (-58420 / 1677) (-367538 / 1677)] := by
  rw [arcTurnBody_cmds]
  norm_num [arcTurnWheels, arcTurnQuot, DL, DR, arcTurnVel, arcTurnClamp,
    ratUtil, pid.init, pid.out, pidIntegral, specMinError, specDirToSpin,
    abs_of_nonneg, abs_of_neg]

/-- The run `odomDrive(100, 0, 1)` over the reals, with their square root,
sine and cosine, called at (0, 0) with heading 0, the robot at rest: the
target is (0, -100), the error 100. -/
theorem odomDrive_run_210 :
    odomDrive
        (specUtil Real.sqrt Real.sin Real.cos
          (fun dx dy => Complex.arg ⟨dy, dx⟩ * 180 / Real.pi) Real.pi)
        100 0 1 100 0 ⟨0, 0⟩ (fun _ => ⟨0, 0⟩) (fun k => 10 * (k : ℝ)) 1
      = some ⟨0, [[Cmd.spin 210]], [Cmd.stop "b"]⟩ := by
  have hs : Real.sqrt 10000 = 100 := by
    rw [show (10000 : ℝ) = 100 ^ 2 by norm_num]
    exact Real.sqrt_sq (by norm_num)
  simp only [odomDrive, runLoop, iterate, odomDriveBody, odomDriveTarget,
    odomDriveError, specUtil, sub_zero, Real.sin_two_pi, Real.cos_two_pi]
  norm_num [hs]

/-- The run `moveTo((0, 1000), 10, pidConstants(0.3, 0, 2.4, 5, 30, 1000),
pidConstants(4, 0, 4, 0, 190, 20), 0.1, 1, 20)` from (0, 0) with heading 0,
the robot at rest, one tick every 10 ms: the linear error is 1000, the
rotation error 0. -/
theorem moveTo_run_300 :
    moveTo ratUtil ⟨0, 1000⟩ 10 ⟨0.3, 0, 2.4, 5, 30, 1000⟩ ⟨4, 0, 4, 0, 190, 20⟩
        0.1 1 20 ⟨0, 0⟩ 0 (fun _ => ⟨0, 0⟩) (fun _ => 0) (fun k => 10 * (k : ℚ)) 2
      = some ⟨1, [[Cmd.spinDiffy 300 300], []], [Cmd.stop "b"]⟩ := by
  simp only [moveTo, runLoop, iterate, moveToBody, ratUtil_distToPoint_vertical]
  norm_num [ratUtil, specMinError, specDirToSpin, moveToGain, pid.init, pid.out,
    pid.update, pidIntegral, abs_of_nonneg, abs_of_neg]

/-- Counterexample to C7. `spinTo(90, 10)` with the default constants and the
heading at 0 commands `spinDiffy(-333, 333)` in iteration 0. `drive(-500, 0,
1)` with the rotation sensor at 0 commands `spinDiffy(-150, -150)`.
`autoDrive(-500, 0, 0)` with the default constants, heading and rotation at 0,
commands `spinDiffy(127, -3873)`. `arcTurn(1, 500, 3000,
pidConstants(2.8, 0, 20, 0.05, 5, 100))` with the heading at 0 commands a left
value below -127. `odomDrive(100, 0, 1)` called at (0, 0) with heading 0
commands `spin(210)`. `moveTo((0, 1000), 10, …)` from (0, 0) with heading 0
commands `spinDiffy(300, 300)`. -/
theorem commands_exceed_127 :
    spinTo ratUtil 90 10 ⟨3.7, 1.3, 26, 0.05, 2.4, 20⟩ 90 (fun _ => 0)
        (fun k => 10 * (k : ℚ)) 2
      = some ⟨1, [[Cmd.spinDiffy (-333) 333], []], [Cmd.stop "b"]⟩ ∧
    ¬ ((-127 : ℚ) ≤ -333 ∧ (333 : ℚ) ≤ 127) ∧
    drive (-500) 0 1 (-500) (fun _ => 0) (fun k => 10 * (k : ℚ)) 1
      = some ⟨0, [[Cmd.spinDiffy (-150) (-150)]], [Cmd.stop "b"]⟩ ∧
    ¬ ((-127 : ℚ) ≤ -150) ∧
    autoDrive ratUtil (-500) 0 0 ⟨0.3, 0.2, 2.4, 5, 30, 1000⟩
        ⟨4, 0.7, 4, 0, 190, 20⟩ 0 (fun _ => 0) (fun _ => 0)
        (fun k => 10 * (k : ℚ)) 1
      = some ⟨0, [[Cmd.spinDiffy 127 (-3873)]], [Cmd.stop "b"]⟩ ∧
    ¬ ((-127 : ℚ) ≤ -3873) ∧
    (∃ rvel lvel,
      (arcTurnBody ratUtil 1 500 3000 (fun _ => 0) (fun k => 10 * (k : ℚ)) 0
        (pid.init ⟨2.8, 0, 20, 0.05, 5, 100⟩ 1000)).cmds =
        [Cmd.spinDiffy rvel lvel] ∧ lvel < -127) ∧
    odomDrive
        (specUtil Real.sqrt Real.sin Real.cos
          (fun dx dy => Complex.arg ⟨dy, dx⟩ * 180 / Real.pi) Real.pi)
        100 0 1 100 0 ⟨0, 0⟩ (fun _ => ⟨0, 0⟩) (fun k => 10 * (k : ℝ)) 1
      = some ⟨0, [[Cmd.spin 210]], [Cmd.stop "b"]⟩ ∧
    ¬ ((210 : ℝ) ≤ 127) ∧
    moveTo ratUtil ⟨0, 1000⟩ 10 ⟨0.3, 0, 2.4, 5, 30, 1000⟩ ⟨4, 0, 4, 0, 190, 20⟩
        0.1 1 20 ⟨0, 0⟩ 0 (fun _ => ⟨0, 0⟩) (fun _ => 0) (fun k => 10 * (k : ℚ)) 2
      = some ⟨1, [[Cmd.spinDiffy 300 300], []], [Cmd.stop "b"]⟩ ∧
    ¬ ((300 : ℚ) ≤ 127) :=
  ⟨spinTo_run_333, by norm_num, drive_run_150, by norm_num, autoDrive_run_3873,
    by norm_num, ⟨_, _, arcTurn_tick_219, by norm_num⟩, odomDrive_run_210,
    by norm_num, moveTo_run_300, by norm_num⟩

/-- C7 (amended). None of the six primitives confines its commands to
[-127, 127]: `spinTo`, `drive`, `odomDrive` and `moveTo`, which contain no
clamp, each have a call that commands a value of magnitude above 127;
`autoDrive` has a call that commands a value below -127 and `arcTurn` a tick
that commands a value of magnitude above 127. What the two do limit: on every
tick of `autoDrive`, when `dirToSpin` returns 1 or -1, both components passed
to `spinDiffy` are at most 127; on every tick of `arcTurn`, when `sign`
returns values of magnitude at most 1 and the quotient `sl/sr` is defined
(`theta ≠ 0`, `radius + DR ≠ 0`) and not -1, the mean of the two components
passed to `spinDiffy` is the clamped value `vel`, of magnitude at most 127. -/
theorem partial_saturation {α : Type} [LinearOrderedField α] (u : Util α) :
    (∃ (target timeout : ℚ), ∃ c prevError0 heading clock fuel r rvel lvel,
      spinTo ratUtil target timeout c prevError0 heading clock fuel = some r ∧
      Cmd.spinDiffy rvel lvel ∈ r.trace ∧ 127 < |rvel|) ∧
    (∃ (target timeout tolerance prevError0 : ℚ), ∃ rotation clock fuel r rvel lvel,
      drive target timeout tolerance prevError0 rotation clock fuel = some r ∧
      Cmd.spinDiffy rvel lvel ∈ r.trace ∧ 127 < |rvel|) ∧
    (∃ (distance timeout tolerance prevError0 heading0 : ℝ),
        ∃ pos0 pos clock fuel r vel,
      odomDrive
          (specUtil Real.sqrt Real.sin Real.cos
            (fun dx dy => Complex.arg ⟨dy, dx⟩ * 180 / Real.pi) Real.pi)
          distance timeout tolerance prevError0 heading0 pos0 pos clock fuel
        = some r ∧
      Cmd.spin vel ∈ r.trace ∧ 127 < |vel|) ∧
    (∃ (target : coordinate ℚ), ∃ timeout lConstants rConstants rotationBias
        rotationScale rotationCut pos0 heading0 pos heading clock fuel r rvel lvel,
      moveTo ratUtil target timeout lConstants rConstants rotationBias
          rotationScale rotationCut pos0 heading0 pos heading clock fuel = some r ∧
      Cmd.spinDiffy rvel lvel ∈ r.trace ∧ 127 < |rvel|) ∧
    (∃ (target heading timeout : ℚ), ∃ lCons acons heading0 imu rotation clock
        fuel r rvel lvel,
      autoDrive ratUtil target heading timeout lCons acons heading0 imu rotation
          clock fuel = some r ∧
      Cmd.spinDiffy rvel lvel ∈ r.trace ∧ lvel < -127) ∧
    (∃ (theta radius timeout : ℚ), ∃ imu clock k controller rvel lvel,
      theta ≠ 0 ∧ radius + DR ≠ 0 ∧ arcTurnQuot theta radius ≠ -1 ∧
      Cmd.spinDiffy rvel lvel ∈
        (arcTurnBody ratUtil theta radius timeout imu clock k controller).cmds ∧
      127 < |lvel|) ∧
    (∀ target heading timeout imu rotation clock k (s : AutoDriveState α) rvel lvel,
      (u.dirToSpin heading (imu k) = 1 ∨ u.dirToSpin heading (imu k) = -1) →
      Cmd.spinDiffy rvel lvel ∈
        (autoDriveBody u target heading timeout imu rotation clock k s).cmds →
      rvel ≤ 127 ∧ lvel ≤ 127) ∧
    (∀ theta radius timeout imu clock k (controller : pid α) rvel lvel,
      (∀ x, |u.sign x| ≤ 1) →
      theta ≠ 0 → radius + DR ≠ 0 →
      arcTurnQuot theta radius ≠ -1 →
      Cmd.spinDiffy rvel lvel ∈
        (arcTurnBody u theta radius timeout imu clock k controller).cmds →
      (rvel + lvel) / 2 = arcTurnVel u (u.rtd theta) (imu k) controller ∧
      |(rvel + lvel) / 2| ≤ 127) := by
  refine ⟨?_, ?_, ?_, ?_, ?_, ?_, ?_, ?_⟩
  · exact ⟨_, _, _, _, _, _, _, _, -333, 333, spinTo_run_333,
      by simp [Run.trace], by norm_num [abs_of_neg]⟩
  · exact ⟨_, _, _, _, _, _, _, _, -150, -150, drive_run_150,
      by simp [Run.trace], by norm_num [abs_of_neg]⟩
  · exact ⟨_, _, _, _, _, _, _, _, _, _, 210, odomDrive_run_210,
      by simp [Run.trace], by norm_num [abs_of_nonneg]⟩
  · exact ⟨_, _, _, _, _, _, _, _, _, _, _, _, _, _, 300, 300, moveTo_run_300,
      by simp [Run.trace], by norm_num [abs_of_nonneg]⟩
  · exact ⟨_, _, _, _, _, _, _, _, _, _, _, 127, -3873, autoDrive_run_3873,
      by simp [Run.trace], by norm_num⟩
  · refine ⟨1, 500, 3000, fun _ => 0, fun k => 10 * (k : ℚ), 0,
      pid.init ⟨2.8, 0, 20, 0.05, 5, 100⟩ 1000, -58420 / 1677, -367538 / 1677,
      by norm_num, by norm_num [DR], by norm_num [arcTurnQuot, DL, DR], ?_,
      by norm_num [abs_of_neg]⟩
    rw [arcTurn_tick_219]
    exact List.mem_singleton.mpr rfl
  · intro target heading timeout imu rotation clock k s rvel lvel hd hmem
    simp only [autoDriveBody, List.mem_singleton, Cmd.spinDiffy.injEq] at hmem
    obtain ⟨hr, hl⟩ := hmem
    have hsg : (if target > 0 then (1 : α) else -1) = 1 ∨
        (if target > 0 then (1 : α) else -1) = -1 := by
      split
      · exact Or.inl rfl
      · exact Or.inr rfl
    have hdir : ((-u.dirToSpin heading (imu k) : ℤ) : α) = 1 ∨
        ((-u.dirToSpin heading (imu k) : ℤ) : α) = -1 := by
      rcases hd with h | h <;> rw [h] <;> simp
    have hclip := autoDriveClip_le
      ((s.linearController.out (target - rotation k)).1)
      ((if u.minError heading s.currHeading < 0.5 then
          s.angularController.update
            (if u.minError heading s.currHeading < 0.5 then
              { s.acons with p := 0 } else s.acons)
        else s.angularController).out (u.minError heading s.currHeading)).1
    have habs := abs_le.mp (le_refl
      |((if u.minError heading s.currHeading < 0.5 then
          s.angularController.update
            (if u.minError heading s.currHeading < 0.5 then
              { s.acons with p := 0 } else s.acons)
        else s.angularController).out (u.minError heading s.currHeading)).1|)
    rw [hr, hl]
    rcases hdir with h | h <;> rcases hsg with h' | h' <;> rw [h, h'] <;>
      constructor <;> linarith [habs.1, habs.2]
  · intro theta radius timeout imu clock k controller rvel lvel hs _ _ hq hmem
    rw [arcTurnBody_cmds, List.mem_singleton, Cmd.spinDiffy.injEq] at hmem
    obtain ⟨hr, hl⟩ := hmem
    have hsum := arcTurnWheels_sum (arcTurnQuot theta radius)
      (arcTurnVel u (u.rtd theta) (imu k) controller) hq
    have hmean : (rvel + lvel) / 2 = arcTurnVel u (u.rtd theta) (imu k) controller := by
      rw [hr, hl, hsum]
      field_simp
    refine ⟨hmean, ?_⟩
    rw [hmean]
    exact arcTurnClamp_abs_le u _ (hs _)

/-- Witness of C7 (amended): the first tick of `autoDrive(-500, 0, 0)` and of
`arcTurn(1, 500, 3000, pidConstants(2.8, 0, 20, 0.05, 5, 100))` with the
sensors at 0. -/
theorem partial_saturation_witness :
    ((ratUtil.dirToSpin 0 ((fun _ : Nat => (0 : ℚ)) 0) = 1 ∨
        ratUtil.dirToSpin 0 ((fun _ : Nat => (0 : ℚ)) 0) = -1) ∧
      Cmd.spinDiffy 127 (-3873) ∈
        (autoDriveBody ratUtil (-500) 0 0 (fun _ => 0) (fun _ => 0)
          (fun k => 10 * (k : ℚ)) 0
          ⟨0, ⟨4, 0.7, 4, 0, 190, 20⟩,
            pid.init ⟨0.3, 0.2, 2.4, 5, 30, 1000⟩ 0,
            pid.init ⟨4, 0.7, 4, 0, 190, 20⟩ (-500)⟩).cmds) ∧
    ((127 : ℚ) ≤ 127 ∧ (-3873 : ℚ) ≤ 127) ∧
    ((∀ x, |ratUtil.sign x| ≤ 1) ∧ (1 : ℚ) ≠ 0 ∧ (500 : ℚ) + DR ≠ 0 ∧
      arcTurnQuot (1 : ℚ) 500 ≠ -1 ∧
      Cmd.spinDiffy (-58420 / 1677) (-367538 / 1677) ∈
        (arcTurnBody ratUtil 1 500 3000 (fun _ => 0) (fun k => 10 * (k : ℚ)) 0
          (pid.init ⟨2.8, 0, 20, 0.05, 5, 100⟩ 1000)).cmds) ∧
    |((-58420 / 1677 : ℚ) + -367538 / 1677) / 2| ≤ 127 := by
  have h3 : ∀ x, |ratUtil.sign x| ≤ 1 := by
    intro x
    simp only [ratUtil]
    split
    · norm_num
    · split <;> norm_num
  have h4 : arcTurnQuot (1 : ℚ) 500 ≠ -1 := by norm_num [arcTurnQuot, DL, DR]
  have h6 : (1 : ℚ) ≠ 0 := by norm_num
  have h7 : (500 : ℚ) + DR ≠ 0 := by norm_num [DR]
  have h5 : Cmd.spinDiffy (-58420 / 1677) (-367538 / 1677) ∈
      (arcTurnBody ratUtil 1 500 3000 (fun _ => 0) (fun k => 10 * (k : ℚ)) 0
        (pid.init ⟨2.8, 0, 20, 0.05, 5, 100⟩ 1000)).cmds := by
    rw [arcTurn_tick_219]
    exact List.mem_singleton.mpr rfl
  have h1 : ratUtil.dirToSpin 0 ((fun _ : Nat => (0 : ℚ)) 0) = 1 ∨
      ratUtil.dirToSpin 0 ((fun _ : Nat => (0 : ℚ)) 0) = -1 := by
    left
    norm_num [ratUtil, specDirToSpin, specMinError]
  have h2 : Cmd.spinDiffy 127 (-3873) ∈
      (autoDriveBody ratUtil (-500) 0 0 (fun _ => 0) (fun _ => 0)
        (fun k => 10 * (k : ℚ)) 0
        ⟨0, ⟨4, 0.7, 4, 0, 190, 20⟩,
          pid.init ⟨0.3, 0.2, 2.4, 5, 30, 1000⟩ 0,
          pid.init ⟨4, 0.7, 4, 0, 190, 20⟩ (-500)⟩).cmds := by
    norm_num [autoDriveBody, autoDriveClip, ratUtil,
      specMinError, specDirToSpin, pid.init, pid.out, pid.update, pidIntegral,
      abs_of_nonneg, abs_of_neg]
  exact ⟨⟨h1, h2⟩,
    (partial_saturation ratUtil).2.2.2.2.2.2.1 (-500) 0 0 (fun _ => 0) (fun _ => 0)
      (fun k => 10 * (k : ℚ)) 0 _ 127 (-3873) h1 h2,
    ⟨h3, h6, h7, h4, h5⟩,
    ((partial_saturation ratUtil).2.2.2.2.2.2.2 1 500 3000 (fun _ => 0)
      (fun k => 10 * (k : ℚ)) 0 _ _ _ h3 h6 h7 h4 h5).2⟩

/-- Counterexample to C8, with the default constants of `spinTo` (tolerance
0.05, integralThreshold 2.4, maxIntegral 20). With error -1 and integral 5
the rule of the claim gives 4 (`0.05 < |-1| < 2.4`), `spinTo` gives 0
(`-1 ≤ 0.05`). With error 3 and integral -30 the rule of the claim gives 0
(`|-30| > 20`), `spinTo` keeps -30. -/
theorem spinTo_integral_is_signed :
    (pidIntegral (⟨3.7, 1.3, 26, 0.05, 2.4, 20⟩ : pidConstants ℚ) 5 (-1) = 4 ∧
      spinToIntegral (⟨3.7, 1.3, 26, 0.05, 2.4, 20⟩ : pidConstants ℚ) 5 (-1) = 0) ∧
    (pidIntegral (⟨3.7, 1.3, 26, 0.05, 2.4, 20⟩ : pidConstants ℚ) (-30) 3 = 0 ∧
      spinToIntegral (⟨3.7, 1.3, 26, 0.05, 2.4, 20⟩ : pidConstants ℚ) (-30) 3 = -30) := by
  refine ⟨⟨?_, ?_⟩, ?_, ?_⟩
  · norm_num [pidIntegral, abs_of_nonneg, abs_of_neg]
  · norm_num [spinToIntegral]
  · norm_num [pidIntegral, abs_of_nonneg, abs_of_neg]
  · norm_num [spinToIntegral]

/-- Witness of C8 (amended): the first tick of `spinTo(2, 1000)` with the
default constants and the heading at 0: error 2, integral 0. -/
theorem spinTo_integral_rule_witness :
    ((fun k : Nat => 10 * (k : ℚ)) 0 < 1000 ∧
      0 ≤ ratUtil.minError 2 ((fun _ : Nat => (0 : ℚ)) 0) ∧
      (0 : ℚ) ≤ (⟨0, 0, 0⟩ : SpinToState ℚ).integral) ∧
    ∃ s', (spinToBody ratUtil 2 1000 ⟨3.7, 1.3, 26, 0.05, 2.4, 20⟩ (fun _ => 0)
        (fun k => 10 * (k : ℚ)) 0 ⟨0, 0, 0⟩).next = some s' ∧
      s'.integral = pidIntegral ⟨3.7, 1.3, 26, 0.05, 2.4, 20⟩ 0
        (ratUtil.minError 2 ((fun _ : Nat => (0 : ℚ)) 0)) := by
  have h1 : (fun k : Nat => 10 * (k : ℚ)) 0 < 1000 := by norm_num
  have h2 : 0 ≤ ratUtil.minError 2 ((fun _ : Nat => (0 : ℚ)) 0) := by
    norm_num [ratUtil, specMinError]
  have h3 : (0 : ℚ) ≤ (⟨0, 0, 0⟩ : SpinToState ℚ).integral := le_refl _
  obtain ⟨s', hs, hi, _⟩ :=
    spinTo_integral_rule ratUtil 2 1000 ⟨3.7, 1.3, 26, 0.05, 2.4, 20⟩ (fun _ => 0)
      (fun k => 10 * (k : ℚ)) 0 ⟨0, 0, 0⟩ h1 h2 h3
  exact ⟨⟨h1, h2, h3⟩, s', hs, hi⟩

/-- Counterexample to C9, with the constants `smallTurn` of `autons.hpp`
(tolerance 0.05, integralThreshold 7, maxIntegral 10), one tick every 10 ms
and timeout 1000. With the constant error 0.05, equal to the tolerance, the
integral after 1 tick is 0, not 0.05. With the constant error 6 the integral
after 2 ticks is 0, not 12. -/
theorem spinTo_integral_not_n_times_e :
    ((0.05 : ℚ) ≤ |ratUtil.minError 0.05 0| ∧ |ratUtil.minError 0.05 0| < (7 : ℚ) ∧
      stateAfter
        (spinToBody ratUtil 0.05 1000 ⟨10, 1.6, 2, 0.05, 7, 10⟩ (fun _ => 0)
          (fun k => 10 * (k : ℚ))) ⟨0, 0, 0⟩ 1 = some ⟨0, 0.05, 0⟩ ∧
      (0 : ℚ) ≠ ((1 : ℕ) : ℚ) * 0.05) ∧
    ((0.05 : ℚ) ≤ |ratUtil.minError 6 0| ∧ |ratUtil.minError 6 0| < (7 : ℚ) ∧
      stateAfter
        (spinToBody ratUtil 6 1000 ⟨10, 1.6, 2, 0.05, 7, 10⟩ (fun _ => 0)
          (fun k => 10 * (k : ℚ))) ⟨0, 0, 0⟩ 2 = some ⟨0, 6, 10⟩ ∧
      (0 : ℚ) ≠ ((2 : ℕ) : ℚ) * 6) := by
  refine ⟨⟨?_, ?_, ?_, by norm_num⟩, ?_, ?_, ?_, by norm_num⟩
  · norm_num [ratUtil, specMinError, abs_of_nonneg]
  · norm_num [ratUtil, specMinError, abs_of_nonneg]
  · norm_num [stateAfter, spinToBody, spinToIntegral, ratUtil, specMinError]
  · norm_num [ratUtil, specMinError, abs_of_nonneg]
  · norm_num [ratUtil, specMinError, abs_of_nonneg]
  · norm_num [stateAfter, spinToBody, spinToIntegral, ratUtil, specMinError]

/-- Witness of C9 (amended): `spinTo(2, 1000)` with the constants `smallTurn`
and the heading at 0: the error is 2 on every tick and the integral after 3
ticks is 6. -/
theorem spinTo_integral_accumulates_witness :
    ((0.05 : ℚ) < 2 ∧ (2 : ℚ) < 7 ∧
      (∀ j : Nat, 1 ≤ j → j ≤ 3 → (j : ℚ) * 2 ≤ 10) ∧
      (∀ j : Nat, j < 3 → ratUtil.minError 2 ((fun _ : Nat => (0 : ℚ)) j) = 2) ∧
      (∀ j : Nat, j < 3 → (fun k : Nat => 10 * (k : ℚ)) j < 1000)) ∧
    ∃ s, stateAfter
        (spinToBody ratUtil 2 1000 ⟨10, 1.6, 2, 0.05, 7, 10⟩ (fun _ => 0)
          (fun k => 10 * (k : ℚ))) ⟨0, 0, 0⟩ 3 = some s ∧
      s.integral = ((3 : ℕ) : ℚ) * 2 := by
  have h1 : (0.05 : ℚ) < 2 := by norm_num
  have h2 : (2 : ℚ) < 7 := by norm_num
  have h3 : ∀ j : Nat, 1 ≤ j → j ≤ 3 → (j : ℚ) * 2 ≤ 10 := by
    intro j _ hj
    have : (j : ℚ) ≤ 3 := by exact_mod_cast hj
    linarith
  have h4 : ∀ j : Nat, j < 3 →
      ratUtil.minError 2 ((fun _ : Nat => (0 : ℚ)) j) = 2 := by
    intro j _
    norm_num [ratUtil, specMinError]
  have h5 : ∀ j : Nat, j < 3 → (fun k : Nat => 10 * (k : ℚ)) j < 1000 := by
    intro j hj
    have : (j : ℚ) < 3 := by exact_mod_cast hj
    show 10 * (j : ℚ) < 1000
    linarith
  exact ⟨⟨h1, h2, h3, h4, h5⟩,
    (spinTo_integral_accumulates ratUtil 2 1000 ⟨10, 1.6, 2, 0.05, 7, 10⟩ 0
      (fun _ => 0) (fun k => 10 * (k : ℚ)) 2 3 h1 h2 h3 h4 h5).1⟩

/-- Witness of C10: initial gain 4, initial linear error 100, cutoff 20; at
linear error 60 the gain is 2. -/
theorem moveTo_gain_schedule_witness :
    ((100 : ℚ) ≠ 20 ∧ (0 : ℚ) ≤ 4) ∧
    moveToGain (4 : ℚ) 100 20 60 = max 0 (4 * (60 - 20) / (100 - 20)) ∧
    moveToGain (4 : ℚ) 100 20 60 = 2 ∧
    moveToGain (4 : ℚ) 100 20 100 = 4 ∧
    moveToGain (4 : ℚ) 100 20 20 = 0 := by
  have h1 : (100 : ℚ) ≠ 20 := by norm_num
  have h2 : (0 : ℚ) ≤ 4 := by norm_num
  have t := moveTo_gain_schedule (4 : ℚ) 100 20 h1 h2
  exact ⟨⟨h1, h2⟩, t.1 60, by norm_num [moveToGain], t.2.1, t.2.2.1⟩


/-! ## Concrete inputs for the blend, the gain latch, `odomDrive` and `drive` -/

/-- Witness of C11: bias 0.1, a tick of `moveTo` towards (3, 0) before the
timeout; with `L = 1` and `R = 2` the mean of the blend is at most 1. -/
theorem moveToVel_blend_witness :
    ((0 : ℚ) ≤ 0.1 ∧ (fun k : Nat => 10 * (k : ℚ)) 0 < 1000) ∧
    ((moveToVelBlend (1 : ℚ) 2 0.1).1 + (moveToVelBlend (1 : ℚ) 2 0.1).2) / 2 ≤ 1 ∧
    (moveToBody ratUtil ⟨3, 0⟩ 1000 ⟨4, 0, 0, 0, 0, 0⟩ 0.1 20 3 (fun _ => ⟨0, 0⟩)
      (fun _ => 0) (fun k => 10 * (k : ℚ)) 0
      ⟨pid.init ⟨1, 0, 0, 0, 0, 0⟩ 3, pid.init ⟨4, 0, 0, 0, 0, 0⟩ 0⟩).cmds =
      [Cmd.spinDiffy
        (moveToVelBlend
          (moveToLinearVel ratUtil ⟨3, 0⟩ (fun _ => ⟨0, 0⟩) (fun _ => 0) 0
            ⟨pid.init ⟨1, 0, 0, 0, 0, 0⟩ 3, pid.init ⟨4, 0, 0, 0, 0, 0⟩ 0⟩)
          (moveToRotationVel ratUtil ⟨3, 0⟩ ⟨4, 0, 0, 0, 0, 0⟩ 20 3
            (fun _ => ⟨0, 0⟩) (fun _ => 0) 0
            ⟨pid.init ⟨1, 0, 0, 0, 0, 0⟩ 3, pid.init ⟨4, 0, 0, 0, 0, 0⟩ 0⟩) 0.1).2
        (moveToVelBlend
          (moveToLinearVel ratUtil ⟨3, 0⟩ (fun _ => ⟨0, 0⟩) (fun _ => 0) 0
            ⟨pid.init ⟨1, 0, 0, 0, 0, 0⟩ 3, pid.init ⟨4, 0, 0, 0, 0, 0⟩ 0⟩)
          (moveToRotationVel ratUtil ⟨3, 0⟩ ⟨4, 0, 0, 0, 0, 0⟩ 20 3
            (fun _ => ⟨0, 0⟩) (fun _ => 0) 0
            ⟨pid.init ⟨1, 0, 0, 0, 0, 0⟩ 3, pid.init ⟨4, 0, 0, 0, 0, 0⟩ 0⟩) 0.1).1] := by
  have h1 : (0 : ℚ) ≤ 0.1 := by norm_num
  have h2 : (fun k : Nat => 10 * (k : ℚ)) 0 < 1000 := by norm_num
  have t := moveToVel_blend ratUtil ⟨0, 0⟩ 0 ⟨3, 0⟩ 0.1 0.1 0.1
  exact ⟨⟨h1, h2⟩, (t.2.1 1 2).2.2.2 h1,
    t.2.2 1000 ⟨4, 0, 0, 0, 0, 0⟩ 20 3 (fun _ => ⟨0, 0⟩) (fun _ => 0)
      (fun k => 10 * (k : ℚ)) 0 _ h2⟩

/-- Witness of C12: `autoDrive(500, 90, 1000)` with the default constants, the
heading 80 before the loop, 89.8 on tick 0 and 85 afterwards. The error is 10
on tick 0, 0.2 on tick 1 and 5 on tick 2; the P gain on tick 2 is 0. -/
theorem autoDrive_gain_latched_witness :
    ((∀ j : Nat, j < 2 → (fun k : Nat => 10 * (k : ℚ)) j < 1000) ∧
      (∃ j, j ≤ 2 ∧
        autoDriveError ratUtil 90 80 (fun k => if k = 0 then 89.8 else 85) j < 0.5) ∧
      ¬ autoDriveError ratUtil 90 80 (fun k => if k = 0 then 89.8 else 85) 2 < 0.5) ∧
    ∃ s, stateAfter
        (autoDriveBody ratUtil 500 90 1000 (fun k => if k = 0 then 89.8 else 85)
          (fun _ => 0) (fun k => 10 * (k : ℚ)))
        ⟨80, ⟨4, 0.7, 4, 0, 190, 20⟩,
          pid.init ⟨0.3, 0.2, 2.4, 5, 30, 1000⟩ (ratUtil.minError 90 80),
          pid.init ⟨4, 0.7, 4, 0, 190, 20⟩ 500⟩ 2 = some s ∧
      (autoDriveAngular ratUtil 90 s).constants.p = 0 := by
  have h1 : ∀ j : Nat, j < 2 → (fun k : Nat => 10 * (k : ℚ)) j < 1000 := by
    intro j hj
    have : (j : ℚ) < 2 := by exact_mod_cast hj
    show 10 * (j : ℚ) < 1000
    linarith
  have h2 : ∃ j, j ≤ 2 ∧
      autoDriveError ratUtil 90 80 (fun k => if k = 0 then 89.8 else 85) j < 0.5 :=
    ⟨1, by norm_num, by norm_num [autoDriveError, ratUtil, specMinError]⟩
  have h3 : ¬ autoDriveError ratUtil 90 80 (fun k => if k = 0 then 89.8 else 85) 2
      < 0.5 := by
    norm_num [autoDriveError, ratUtil, specMinError]
  obtain ⟨s, hs, hz, _⟩ :=
    autoDrive_gain_latched ratUtil 500 90 1000 ⟨0.3, 0.2, 2.4, 5, 30, 1000⟩
      ⟨4, 0.7, 4, 0, 190, 20⟩ 80 (fun k => if k = 0 then 89.8 else 85)
      (fun _ => 0) (fun k => 10 * (k : ℚ)) 2 h1
  exact ⟨⟨h1, h2, h3⟩, s, hs, hz h2⟩

/-- Witness of C13: over the reals, with the square root, sine, cosine and pi
of the reals: `odomDrive(100, …)` called at (0, 0) with heading pi/2. -/
theorem odomDrive_target_error_witness :
    ((∀ a,
        (specUtil Real.sqrt Real.sin Real.cos
          (fun dx dy => Complex.arg ⟨dy, dx⟩ * 180 / Real.pi) Real.pi).sin a ^ 2 +
        (specUtil Real.sqrt Real.sin Real.cos
          (fun dx dy => Complex.arg ⟨dy, dx⟩ * 180 / Real.pi) Real.pi).cos a ^ 2
          = 1) ∧
      ∀ a b : coordinate ℝ,
        0 ≤ (specUtil Real.sqrt Real.sin Real.cos
          (fun dx dy => Complex.arg ⟨dy, dx⟩ * 180 / Real.pi) Real.pi).distToPoint
            a b ∧
        (specUtil Real.sqrt Real.sin Real.cos
          (fun dx dy => Complex.arg ⟨dy, dx⟩ * 180 / Real.pi) Real.pi).distToPoint
            a b ^ 2 = (a.x - b.x) ^ 2 + (a.y - b.y) ^ 2) ∧
    (specUtil Real.sqrt Real.sin Real.cos
      (fun dx dy => Complex.arg ⟨dy, dx⟩ * 180 / Real.pi) Real.pi).distToPoint
        ⟨0, 0⟩
        (odomDriveTarget
          (specUtil Real.sqrt Real.sin Real.cos
            (fun dx dy => Complex.arg ⟨dy, dx⟩ * 180 / Real.pi) Real.pi)
          100 (Real.pi / 2) ⟨0, 0⟩) = |(100 : ℝ)| := by
  have h1 : ∀ a,
      (specUtil Real.sqrt Real.sin Real.cos
        (fun dx dy => Complex.arg ⟨dy, dx⟩ * 180 / Real.pi) Real.pi).sin a ^ 2 +
      (specUtil Real.sqrt Real.sin Real.cos
        (fun dx dy => Complex.arg ⟨dy, dx⟩ * 180 / Real.pi) Real.pi).cos a ^ 2
        = 1 := fun a => Real.sin_sq_add_cos_sq a
  have h2 : ∀ a b : coordinate ℝ,
      0 ≤ (specUtil Real.sqrt Real.sin Real.cos
        (fun dx dy => Complex.arg ⟨dy, dx⟩ * 180 / Real.pi) Real.pi).distToPoint
          a b ∧
      (specUtil Real.sqrt Real.sin Real.cos
        (fun dx dy => Complex.arg ⟨dy, dx⟩ * 180 / Real.pi) Real.pi).distToPoint
          a b ^ 2 = (a.x - b.x) ^ 2 + (a.y - b.y) ^ 2 := by
    intro a b
    exact ⟨Real.sqrt_nonneg _, Real.sq_sqrt (by positivity)⟩
  exact ⟨⟨h1, h2⟩,
    (odomDrive_target_error _ 100 (Real.pi / 2) ⟨0, 0⟩ h1 h2).2.1⟩

/-- Witness of C14: `drive(-500, 0, 1)` with the rotation sensor at 0 and the
uninitialised previous error at -500 returns in iteration 0 with the command
`0.3*(-500) + 2.4*(-500 - (-500))` on both sides; and `drive(-500, 30, 1)` with
one tick every 10 ms is left in iteration 3. -/
theorem drive_command_law_witness :
    (drive (-500) 0 1 (-500) (fun _ => 0) (fun k => 10 * (k : ℚ)) 1
        = some ⟨0, [[Cmd.spinDiffy (-150) (-150)]], [Cmd.stop "b"]⟩ ∧
      (⟨0, [[Cmd.spinDiffy (-150) (-150)]], [Cmd.stop "b"]⟩ : Run ℚ).ticks.get? 0 =
        some [Cmd.spinDiffy
          (0.3 * (-500 - 0) + 2.4 * ((-500 - 0) - (if 0 = 0 then -500 else -500 - 0)))
          (0.3 * (-500 - 0) + 2.4 * ((-500 - 0) -
            (if 0 = 0 then -500 else -500 - 0)))]) ∧
    (((30 : ℚ) ≤ (fun k : Nat => 10 * (k : ℚ)) 3 ∧
        ∀ j : Nat, j < 3 → (fun k : Nat => 10 * (k : ℚ)) j < 30) ∧
      ExitsAt (drive (-500) 30 1 (-500) (fun _ => 0) (fun k => 10 * (k : ℚ))) 3) := by
  have h1 : drive (-500) 0 1 (-500) (fun _ => 0) (fun k => 10 * (k : ℚ)) 1
      = some ⟨0, [[Cmd.spinDiffy (-150) (-150)]], [Cmd.stop "b"]⟩ := by
    norm_num [drive, runLoop, iterate, driveBody, driveOut]
  have h2 : (30 : ℚ) ≤ (fun k : Nat => 10 * (k : ℚ)) 3 := by norm_num
  have h3 : ∀ j : Nat, j < 3 → (fun k : Nat => 10 * (k : ℚ)) j < 30 := by
    intro j hj
    have : (j : ℚ) < 3 := by exact_mod_cast hj
    show 10 * (j : ℚ) < 30
    linarith
  exact ⟨⟨h1,
      (drive_command_law (-500) 0 (-500) (fun _ => 0) (fun k => 10 * (k : ℚ))).2.1
        1 1 _ h1 0 (le_refl _)⟩,
    ⟨h2, h3⟩,
    (drive_command_law (-500) 30 (-500) (fun _ => 0)
      (fun k => 10 * (k : ℚ))).2.2.2 1 3 h2 h3⟩

/-! ## Concrete inputs for `moveToPose`, `timedSpin`, the clip and the clamp -/

/-- The table `lineLut` has 101 samples. -/
theorem lineLut_length : lineLut.length = 101 := by
  rw [lineLut, List.length_map, List.length_range]

/-- Witness of C15: `moveToPose` along `lineLut` (curve length 10), first tick
with the robot at (5, 0): the distance travelled is 5, the loop goes on. -/
theorem moveToPose_exit_iff_witness :
    (lineLut.length = 101 ∧ (0 : ℚ) < 10 ∧
      (0 : ℚ) + ratUtil.distToPoint ⟨0, 0⟩ ((fun _ : Nat => (⟨5, 0⟩ : coordinate ℚ)) 0)
        ≤ 10) ∧
    (moveToPoseBody ratUtil lineLut (fun _ => ⟨0, 0⟩) 10 (fun _ => ⟨5, 0⟩)
      (fun _ => 0) 0 ⟨0, ⟨0, 0⟩⟩).next ≠ none := by
  have h1 : (0 : ℚ) < 10 := by norm_num
  have h2 : (0 : ℚ) + ratUtil.distToPoint ⟨0, 0⟩
      ((fun _ : Nat => (⟨5, 0⟩ : coordinate ℚ)) 0) ≤ 10 := by
    simp only [ratUtil_distToPoint_axis]
    norm_num [abs_of_neg]
  exact ⟨⟨lineLut_length, h1, h2⟩,
    (moveToPose_exit_iff ratUtil lineLut (fun _ => ⟨0, 0⟩) 10 (fun _ => ⟨5, 0⟩)
      (fun _ => 0) 0 ⟨0, ⟨0, 0⟩⟩ lineLut_length).2.2.2 h1 h2⟩

/-- Witness of C16: `timedSpin(90, 60, 1000)` with the heading 0 before the
loop, 45 on ticks 0 and 1 and 100 from tick 2 on, one tick every 10 ms: the
direction flips on tick 2, which is the last iteration. -/
theorem timedSpin_open_loop_witness :
    ((-ratUtil.dirToSpin 90 0 ≠
          -ratUtil.dirToSpin 90 ((fun k : Nat => if k < 2 then (45 : ℚ) else 100) 2) ∨
        (1000 : ℚ) ≤ (fun k : Nat => 10 * (k : ℚ)) 2) ∧
      ∀ j, j < 2 →
        ¬ (-ratUtil.dirToSpin 90 0 ≠
            -ratUtil.dirToSpin 90 ((fun k : Nat => if k < 2 then (45 : ℚ) else 100) j) ∨
          (1000 : ℚ) ≤ (fun k : Nat => 10 * (k : ℚ)) j)) ∧
    ∃ r, timedSpin ratUtil 90 60 1000 0 (fun k => if k < 2 then 45 else 100)
        (fun k => 10 * (k : ℚ)) 3 = some r ∧ r.exitIter = 2 := by
  have h1 : -ratUtil.dirToSpin 90 0 ≠
        -ratUtil.dirToSpin 90 ((fun k : Nat => if k < 2 then (45 : ℚ) else 100) 2) ∨
      (1000 : ℚ) ≤ (fun k : Nat => 10 * (k : ℚ)) 2 := by
    left
    norm_num [ratUtil, specDirToSpin, specMinError]
  have h2 : ∀ j, j < 2 →
      ¬ (-ratUtil.dirToSpin 90 0 ≠
          -ratUtil.dirToSpin 90 ((fun k : Nat => if k < 2 then (45 : ℚ) else 100) j) ∨
        (1000 : ℚ) ≤ (fun k : Nat => 10 * (k : ℚ)) j) := by
    intro j hj
    have hj' : (j : ℚ) < 2 := by exact_mod_cast hj
    have hlt : ¬ (1000 : ℚ) ≤ 10 * (j : ℚ) := by linarith
    simp only [hj, if_true, hlt, or_false]
    norm_num [ratUtil, specDirToSpin, specMinError]
  obtain ⟨r, hr, hex, _⟩ :=
    (timedSpin_open_loop ratUtil 90 60 1000 0 (fun k => if k < 2 then 45 else 100)
      (fun k => 10 * (k : ℚ))).2.2 2 h1 h2 3 (by norm_num)
  exact ⟨⟨h1, h2⟩, r, hr, hex⟩

/-- C17, the code at the failing input: `moveToPose` along `lineLut` (curve
length 10). On the first tick with the robot still where the call found it,
the distance travelled is 0, `t = 0` and the index `t - 1` is -1: the read
`lut[t-1]` is outside the table and the command of the tick is formed from
what lies there. After the robot has travelled 10 (`t = 100`), a step of 0.2
gives `t = 102` and the index 101, beyond the last index 100. -/
theorem moveToPose_index_out_of_table :
    (moveToPoseT ((0 : ℚ) + ratUtil.distToPoint ⟨0, 0⟩ ⟨0, 0⟩) 10 - 1 = -1 ∧
      ¬ (0 : ℤ) ≤ -1 ∧
      ∀ oob : ℤ → coordinate ℚ,
        lutAt lineLut oob (-1) = oob (-1) ∧
        (moveToPoseBody ratUtil lineLut oob 10 (fun _ => ⟨0, 0⟩) (fun _ => 0) 0
          ⟨0, ⟨0, 0⟩⟩).cmds =
          [Cmd.spinDiffy
            (moveToVel ratUtil ⟨0, 0⟩ 0 (oob (-1)) 0.1 0.1 0.1).2
            (moveToVel ratUtil ⟨0, 0⟩ 0 (oob (-1)) 0.1 0.1 0.1).1]) ∧
    (moveToPoseT ((10 : ℚ) + ratUtil.distToPoint ⟨10, 0⟩ ⟨51 / 5, 0⟩) 10 - 1 = 101 ∧
      ¬ (101 : ℤ) ≤ 100 ∧
      ∀ oob : ℤ → coordinate ℚ, lutAt lineLut oob 101 = oob 101) := by
  have t0 : moveToPoseT ((0 : ℚ) + ratUtil.distToPoint ⟨0, 0⟩ ⟨0, 0⟩) 10 = 0 := by
    rw [ratUtil_distToPoint_axis]
    unfold moveToPoseT
    norm_num
  have t102 : moveToPoseT ((10 : ℚ) + ratUtil.distToPoint ⟨10, 0⟩ ⟨51 / 5, 0⟩) 10
      = 102 := by
    rw [ratUtil_distToPoint_axis]
    unfold moveToPoseT
    rw [Int.ceil_eq_iff]
    norm_num [abs_of_neg]
  refine ⟨⟨by rw [t0]; norm_num, by norm_num, ?_⟩, by rw [t102]; norm_num,
    by norm_num, ?_⟩
  · intro oob
    have hneg : lutAt lineLut oob (-1) = oob (-1) := by
      unfold lutAt
      rw [if_neg (by norm_num)]
    refine ⟨hneg, ?_⟩
    rw [moveToPoseBody_cmds]
    simp only [t0]
    norm_num
    rw [hneg]
    exact ⟨rfl, rfl⟩
  · intro oob
    unfold lutAt
    have hnat : Int.toNat 101 = 101 := rfl
    rw [if_pos (by norm_num), hnat, List.get?_eq_getElem?,
      List.getElem?_eq_none (by rw [lineLut_length])]
    rfl

/-- C18, the code at the failing input: the conversion of `moveToVel` maps the
bearing -10 to 190, which is not congruent to -10 modulo 360 (350 is), and
the bearing -180 to 360, which is not below 360. -/
theorem moveToVel_conversion_not_congruent :
    (moveToVelTargetHeading (-10 : ℚ) = 190 ∧
      ¬ ∃ n : ℤ, (190 : ℚ) - (-10) = 360 * (n : ℚ)) ∧
    (moveToVelTargetHeading (-180 : ℚ) = 360 ∧ ¬ (360 : ℚ) < 360) := by
  refine ⟨⟨by norm_num [moveToVelTargetHeading, abs_of_neg], ?_⟩,
    by norm_num [moveToVelTargetHeading, abs_of_neg], by norm_num⟩
  rintro ⟨n, hn⟩
  have h : (200 : ℤ) = 360 * n := by
    have : ((200 : ℤ) : ℚ) = ((360 * n : ℤ) : ℚ) := by
      push_cast
      linarith
    exact_mod_cast this
  omega

/-- Witness of C21: `moveToPose` along `lineLut` (curve length 10), called at
(0, 0), with the robot at (5, 0) on tick 0 and at (10.05, 0) on tick 1: the
distance travelled goes from 5 to 10.05 and `t` from 50 to 101. -/
theorem moveToPose_progress_monotone_witness :
    ((0 : ℚ) < 10 ∧ (∀ a b, 0 ≤ ratUtil.distToPoint a b) ∧
      stateAfter
        (moveToPoseBody ratUtil lineLut (fun _ => ⟨0, 0⟩) 10
          (fun k => if k = 0 then ⟨5, 0⟩ else ⟨201 / 20, 0⟩) (fun _ => 0))
        ⟨0, ⟨0, 0⟩⟩ 0 = some ⟨0, ⟨0, 0⟩⟩ ∧
      stateAfter
        (moveToPoseBody ratUtil lineLut (fun _ => ⟨0, 0⟩) 10
          (fun k => if k = 0 then ⟨5, 0⟩ else ⟨201 / 20, 0⟩) (fun _ => 0))
        ⟨0, ⟨0, 0⟩⟩ 1 = some ⟨5, ⟨5, 0⟩⟩) ∧
    moveToPoseT ((0 : ℚ) + ratUtil.distToPoint ⟨0, 0⟩ ⟨5, 0⟩) 10 = 50 ∧
    moveToPoseT ((5 : ℚ) + ratUtil.distToPoint ⟨5, 0⟩ ⟨201 / 20, 0⟩) 10 = 101 ∧
    moveToPoseT ((0 : ℚ) + ratUtil.distToPoint ⟨0, 0⟩ ⟨5, 0⟩) 10 ≤
      moveToPoseT ((5 : ℚ) + ratUtil.distToPoint ⟨5, 0⟩ ⟨201 / 20, 0⟩) 10 := by
  have h1 : (0 : ℚ) < 10 := by norm_num
  have h2 : ∀ a b, 0 ≤ ratUtil.distToPoint a b := fun a b => Rat.sqrt_nonneg _
  have c50 : moveToPoseT ((0 : ℚ) + ratUtil.distToPoint ⟨0, 0⟩ ⟨5, 0⟩) 10 = 50 := by
    rw [ratUtil_distToPoint_axis]
    unfold moveToPoseT
    rw [Int.ceil_eq_iff]
    norm_num [abs_of_neg]
  have c101 : moveToPoseT ((5 : ℚ) + ratUtil.distToPoint ⟨5, 0⟩ ⟨201 / 20, 0⟩) 10
      = 101 := by
    rw [ratUtil_distToPoint_axis]
    unfold moveToPoseT
    rw [Int.ceil_eq_iff]
    norm_num [abs_of_neg]
  have h3 : stateAfter
      (moveToPoseBody ratUtil lineLut (fun _ => ⟨0, 0⟩) 10
        (fun k => if k = 0 then ⟨5, 0⟩ else ⟨201 / 20, 0⟩) (fun _ => 0))
      ⟨0, ⟨0, 0⟩⟩ 0 = some ⟨0, ⟨0, 0⟩⟩ := rfl
  have h4 : stateAfter
      (moveToPoseBody ratUtil lineLut (fun _ => ⟨0, 0⟩) 10
        (fun k => if k = 0 then ⟨5, 0⟩ else ⟨201 / 20, 0⟩) (fun _ => 0))
      ⟨0, ⟨0, 0⟩⟩ 1 = some ⟨5, ⟨5, 0⟩⟩ := by
    rw [stateAfter, h3, Option.some_bind, moveToPoseBody_next]
    simp only [if_true, c50, lineLut_length]
    rw [if_neg (by norm_num), ratUtil_distToPoint_axis]
    norm_num [abs_of_neg]
  have t := (moveToPose_progress_monotone ratUtil lineLut (fun _ => ⟨0, 0⟩) 10
    ⟨0, 0⟩ (fun k => if k = 0 then ⟨5, 0⟩ else ⟨201 / 20, 0⟩) (fun _ => 0)
    h1 h2 0 ⟨0, ⟨0, 0⟩⟩ h3).2.2 ⟨5, ⟨5, 0⟩⟩ h4
  exact ⟨⟨h1, h2, h3, h4⟩, c50, c101, by simpa using t.2.2.1⟩

end chas
